import Mathlib

/-!
# Catalog query layer of the Netflix-Clone front end

A shallow embedding of the logic of `src/frontend/src/App.js`:

* `getMoviesForCategory` (category pagination, lines 82-91),
* the search effect with its debounce timer (lines 54-79).

JavaScript values are embedded as follows.  Strings are Lean strings, compared
and searched through their character lists (on well-formed text a match on
UTF-16 code units is a match on characters).  Movie ids and release years are
natural numbers (the JSON dataset holds non-negative integers far below
`2^53`, for which `Number.prototype.toString` prints plain decimal digits).
Page numbers and page sizes are integers, so that the index arithmetic of
`Array.prototype.slice`, negative indices included, is the one of the source.
A thrown `TypeError` is the `Except.error` result.

The file also embeds `loadMoreMovies` with the cursor object `currentPage`
(lines 93-99), the memo `featuredMovie` (lines 45-51) and the four overlay
handlers (lines 101-120).

The search effect is a transition system on the state it reads and writes.
In `step` a state change, the render it causes and the effect run that follows
are one transition; the 300 ms delay is abstracted to the event "this timer
fires", enabled while the timer is pending.  The finer system `commitStep`
keeps the commit of a state change and the later run of the effect apart, so
that the renders in between are states too.
-/

namespace NetflixClone

/-! ## Data model -/

/-- One element of `moviesData.movies`, restricted to the fields read by the
catalog logic (`id` by the category lookup, the six others by the search
filter).  The remaining JSON fields are only rendered. -/
structure Movie where
  id : Nat
  title : String
  description : String
  genre : List String
  cast : List String
  director : String
  year : Nat
  deriving DecidableEq, Repr

/-- The own properties of the `categories` object: category name and the
ordered ids of the category.  The first binding of a name is the property. -/
abbrev CategoryIndex := List (String × List Nat)

/-- Exceptions thrown by the embedded code. -/
inductive JSError where
  | typeError
  deriving DecidableEq, Repr

/-- Property names that every plain object inherits from `Object.prototype`.
A lookup `obj[name]` that finds no own property continues on the prototype. -/
def objectPrototypeProperties : List String :=
  ["constructor", "__defineGetter__", "__defineSetter__", "hasOwnProperty",
   "__lookupGetter__", "__lookupSetter__", "isPrototypeOf",
   "propertyIsEnumerable", "toString", "valueOf", "__proto__", "toLocaleString"]

/-- What `categories[categoryName]` evaluates to. -/
inductive Property where
  /-- an own property: the id array of a category -/
  | array (ids : List Nat)
  /-- a member of `Object.prototype` (a function, or the prototype itself) -/
  | inherited
  /-- no property of that name on the object or its prototype -/
  | undefined
  deriving DecidableEq, Repr

/-- The expression `categories[categoryName]`. -/
def getProperty (categories : CategoryIndex) (categoryName : String) : Property :=
  match categories.lookup categoryName with
  | some ids => Property.array ids
  | none =>
    if categoryName ∈ objectPrototypeProperties then Property.inherited
    else Property.undefined

/-- The expression `categories[categoryName] || []`: arrays and the members of
`Object.prototype` are truthy and are kept, `undefined` gives the empty array. -/
def orEmptyArray : Property → Property
  | Property.undefined => Property.array []
  | p => p

/-- The index clamping of `Array.prototype.slice`: a negative index counts from
the end, and the result is clamped to `0 .. len`. -/
def relativeIndex (len : Nat) (i : Int) : Nat :=
  if i < 0 then ((len : Int) + i).toNat else min i.toNat len

/-- The call `xs.slice(startIndex, endIndex)` on an array. -/
def slice {α : Type} (xs : List α) (startIndex endIndex : Int) : List α :=
  let k := relativeIndex xs.length startIndex
  let final := relativeIndex xs.length endIndex
  (xs.drop k).take (final - k)

/-- The call `movies.find(movie => movie.id === movieId)`; `none` is
`undefined`. -/
def findById (movies : List Movie) (movieId : Nat) : Option Movie :=
  movies.find? (fun movie => movie.id == movieId)

/-- The call `.filter(Boolean)` on the mapped array: a movie object is truthy
and is kept, `undefined` is dropped. -/
def filterBoolean (xs : List (Option Movie)) : List Movie :=
  xs.filterMap id

/-- The default value of the parameter `itemsPerPage`. -/
def defaultItemsPerPage : Int := 20

/-- The function `getMoviesForCategory` of `App.js`.  Calling `.slice` on a
member of `Object.prototype` throws, since none of them has such a method. -/
def getMoviesForCategory (movies : List Movie) (categories : CategoryIndex)
    (categoryName : String) (page : Int) (itemsPerPage : Int) :
    Except JSError (List Movie) :=
  let categoryMovieIds := orEmptyArray (getProperty categories categoryName)
  let startIndex := (page - 1) * itemsPerPage
  let endIndex := startIndex + itemsPerPage
  match categoryMovieIds with
  | Property.array ids =>
    Except.ok (filterBoolean
      ((slice ids startIndex endIndex).map (fun movieId => findById movies movieId)))
  | _ => Except.error JSError.typeError

/-- The ids of a category as the specification reads them: the id sequence
stored under the name, the empty sequence for a name that is not a key. -/
def categoryIds (categories : CategoryIndex) (categoryName : String) : List Nat :=
  (categories.lookup categoryName).getD []

/-- A name denotes a category sequence when it is a key of the index, or when
it is no member of `Object.prototype` (and then denotes the empty category). -/
def ResolvesToIds (categories : CategoryIndex) (categoryName : String) : Prop :=
  (categories.lookup categoryName).isSome = true ∨
    categoryName ∉ objectPrototypeProperties

instance (categories : CategoryIndex) (categoryName : String) :
    Decidable (ResolvesToIds categories categoryName) := by
  unfold ResolvesToIds; infer_instance

/-- Ids resolved to items in order, ids without an item omitted. -/
def resolveIds (movies : List Movie) (ids : List Nat) : List Movie :=
  ids.filterMap (fun movieId => findById movies movieId)

/-- Pages `1 .. k` of a category, concatenated in page order.  A failing page
makes the whole concatenation fail. -/
def pagesUpTo (movies : List Movie) (categories : CategoryIndex)
    (categoryName : String) (itemsPerPage : Int) : Nat → Except JSError (List Movie)
  | 0 => Except.ok []
  | k + 1 =>
    match pagesUpTo movies categories categoryName itemsPerPage k,
      getMoviesForCategory movies categories categoryName ((k : Int) + 1) itemsPerPage with
    | Except.ok earlier, Except.ok last => Except.ok (earlier ++ last)
    | _, _ => Except.error JSError.typeError

/-! ## Query engine: the scan -/

/-- Code points removed by `String.prototype.trim`: the ECMAScript `WhiteSpace`
and `LineTerminator` characters. -/
def isWhiteSpace (c : Char) : Bool :=
  c.toNat ∈ [0x09, 0x0A, 0x0B, 0x0C, 0x0D, 0x20, 0xA0, 0x1680, 0x2000, 0x2001,
    0x2002, 0x2003, 0x2004, 0x2005, 0x2006, 0x2007, 0x2008, 0x2009, 0x200A,
    0x2028, 0x2029, 0x202F, 0x205F, 0x3000, 0xFEFF]

/-- The call `s.trim()`: leading and trailing white space removed. -/
def trim (s : String) : String :=
  ⟨((s.data.dropWhile isWhiteSpace).reverse.dropWhile isWhiteSpace).reverse⟩

/-- The test `!searchQuery.trim()`: the trimmed query is the empty string, the
only falsy string. -/
def isBlank (searchQuery : String) : Bool :=
  (trim searchQuery).data.isEmpty

/-- The lower-case form of a character: the ASCII letters `A`-`Z` and the
capital letters of the Latin-1 Supplement (U+00C0 to U+00DE, the
multiplication sign U+00D7 apart) move up by 32 code points; every other
character is kept. -/
def lowerChar (c : Char) : Char :=
  if 0xC0 ≤ c.toNat ∧ c.toNat ≤ 0xDE ∧ c.toNat ≠ 0xD7 then Char.ofNat (c.toNat + 32)
  else c.toLower

/-- The call `s.toLowerCase()`, character by character.  Exact on ASCII and
Latin-1 text; the case pairs of the other scripts are not modelled. -/
def toLowerCase (s : String) : String :=
  ⟨s.data.map lowerChar⟩

/-- Substring search on character lists: is `q` a contiguous block of `s`. -/
def includesChars : List Char → List Char → Bool
  | [], q => q.isPrefixOf []
  | c :: s, q => q.isPrefixOf (c :: s) || includesChars s q

/-- The call `s.includes(query)`. -/
def includes (s query : String) : Bool :=
  includesChars s.data query.data

/-- The call `movie.year.toString()`. -/
def yearToString (year : Nat) : String :=
  Nat.repr year

/-- The arrow function passed to `movies.filter` in the timer callback: the
closure variable `searchQuery` is lowercased (not trimmed) and looked for in
six fields. -/
def matchesQuery (searchQuery : String) (movie : Movie) : Bool :=
  let query := toLowerCase searchQuery
  includes (toLowerCase movie.title) query ||
  includes (toLowerCase movie.description) query ||
  movie.genre.any (fun g => includes (toLowerCase g) query) ||
  movie.cast.any (fun actor => includes (toLowerCase actor) query) ||
  includes (toLowerCase movie.director) query ||
  includes (yearToString movie.year) query

/-- The scan `movies.filter(movie => ...)` of the timer callback. -/
def scan (movies : List Movie) (searchQuery : String) : List Movie :=
  movies.filter (matchesQuery searchQuery)

/-- The relation "`a` is a substring of `b`" of the specification. -/
def IsSubstring (a b : String) : Prop :=
  a.data <:+: b.data

instance (a b : String) : Decidable (IsSubstring a b) := by
  unfold IsSubstring; infer_instance

/-- The match predicate in the words of the specification: the lowercased
query occurs in the lowercased title, description, some genre tag, some cast
name, the director, or in the decimal string of the year. -/
def SpecMatches (query : String) (movie : Movie) : Prop :=
  IsSubstring (toLowerCase query) (toLowerCase movie.title) ∨
  IsSubstring (toLowerCase query) (toLowerCase movie.description) ∨
  (∃ g ∈ movie.genre, IsSubstring (toLowerCase query) (toLowerCase g)) ∨
  (∃ actor ∈ movie.cast, IsSubstring (toLowerCase query) (toLowerCase actor)) ∨
  IsSubstring (toLowerCase query) (toLowerCase movie.director) ∨
  IsSubstring (toLowerCase query) (Nat.repr movie.year)

instance (query : String) (movie : Movie) : Decidable (SpecMatches query movie) := by
  unfold SpecMatches; infer_instance

/-! ## Query engine: the debounced effect as a transition system -/

/-- A pending `setTimeout` callback of the search effect, with the values its
closure captured at scheduling time. -/
structure Timeout where
  id : Nat
  searchQuery : String
  movies : List Movie
  deriving DecidableEq, Repr

/-- A write to the `searchResults` state, recorded in program order. -/
inductive ResultWrite where
  /-- the call `setSearchResults([])` of the blank-query branch -/
  | reset
  /-- a timer callback ran its scan for this query and stored the result -/
  | scanned (searchQuery : String)
  deriving DecidableEq, Repr

/-- The part of the component state read and written by the search effect,
together with the timers of the runtime.  The field `writes` is a history
kept for the statements only; the code never reads it. -/
structure SearchState where
  movies : List Movie
  searchQuery : String
  searchResults : List Movie
  isSearching : Bool
  /-- timers scheduled by `setTimeout` and neither fired nor cleared -/
  timeouts : List Timeout
  /-- the id the next `setTimeout` returns -/
  nextTimeoutId : Nat
  /-- the `timeoutId` held by the cleanup function of the last effect run -/
  cleanup : Option Nat
  writes : List ResultWrite
  deriving DecidableEq, Repr

/-- The `useState` initial values, before any effect has run. -/
def initialState : SearchState :=
  { movies := [], searchQuery := "", searchResults := [], isSearching := false,
    timeouts := [], nextTimeoutId := 1, cleanup := none, writes := [] }

/-- The call `clearTimeout(timeoutId)`. -/
def clearTimeout (timeouts : List Timeout) (timeoutId : Nat) : List Timeout :=
  timeouts.filter (fun t => t.id != timeoutId)

/-- The cleanup `() => clearTimeout(timeoutId)` returned by the previous run of
the effect, if that run returned one: the timers pending after it. -/
def runCleanup (s : SearchState) : List Timeout :=
  match s.cleanup with
  | some timeoutId => clearTimeout s.timeouts timeoutId
  | none => s.timeouts

/-- One run of the search effect (lines 54-79), preceded as React does by the
cleanup function of the previous run. -/
def searchEffect (s : SearchState) : SearchState :=
  let cleared : List Timeout := runCleanup s
  if isBlank s.searchQuery then
    { s with searchResults := [], isSearching := false, timeouts := cleared,
             cleanup := none, writes := s.writes ++ [ResultWrite.reset] }
  else
    { s with isSearching := true,
             timeouts := cleared ++ [⟨s.nextTimeoutId, s.searchQuery, s.movies⟩],
             nextTimeoutId := s.nextTimeoutId + 1,
             cleanup := some s.nextTimeoutId }

/-- The body of the timer callback (lines 63-75). -/
def timeoutCallback (s : SearchState) (t : Timeout) : SearchState :=
  { s with searchResults := scan t.movies t.searchQuery, isSearching := false,
           writes := s.writes ++ [ResultWrite.scanned t.searchQuery] }

/-- The events that drive the search state. -/
inductive Event where
  /-- `handleSearch(query)`, that is `setSearchQuery(query)` -/
  | handleSearch (query : String)
  /-- `setMovies(movies)` with a new array -/
  | setMovies (movies : List Movie)
  /-- the 300 ms delay of the timer with this id has elapsed -/
  | timeoutFires (timeoutId : Nat)
  deriving DecidableEq, Repr

/-- One transition.  Setting the query to its current value makes React bail
out: no render, no effect.  A changed dependency re-runs the effect.  A timer
that fires leaves the pending list and runs its callback; the callback changes
no dependency of the effect. -/
def step (s : SearchState) : Event → SearchState
  | Event.handleSearch query =>
    if query = s.searchQuery then s
    else searchEffect { s with searchQuery := query }
  | Event.setMovies movies => searchEffect { s with movies := movies }
  | Event.timeoutFires timeoutId =>
    match s.timeouts.find? (fun t => t.id == timeoutId) with
    | some t =>
      timeoutCallback { s with timeouts := clearTimeout s.timeouts timeoutId } t
    | none => s

/-- The state after the component has mounted and run the effect once. -/
def mounted : SearchState :=
  searchEffect initialState

/-- States reachable from the mounted component. -/
inductive Reachable : SearchState → Prop where
  | mounted : Reachable mounted
  | step (s : SearchState) (e : Event) : Reachable s → Reachable (step s e)

/-- A burst of query changes with no timer firing in between. -/
def burst (s : SearchState) (queries : List String) : SearchState :=
  queries.foldl (fun st query => step st (Event.handleSearch query)) s

/-- The quiet period elapses: every timer pending at that moment fires, in the
order of scheduling. -/
def elapse (s : SearchState) : SearchState :=
  s.timeouts.foldl (fun st t => step st (Event.timeoutFires t.id)) s

/-- The state after the item list has been loaded into the mounted component. -/
def loaded (movies : List Movie) : SearchState :=
  step mounted (Event.setMovies movies)

/-- The completed search for a query over an item list: the query is typed
into the loaded component and the quiet period elapses. -/
def search (movies : List Movie) (query : String) : List Movie :=
  (elapse (step (loaded movies) (Event.handleSearch query))).searchResults

/-- The item list of the scenario of the specification. -/
def sampleMovies : List Movie :=
  [ { id := 1, title := "Old Guard", description := "", genre := ["Action"],
      cast := [], director := "", year := 2020 },
    { id := 2, title := "New Guard", description := "", genre := ["Drama"],
      cast := [], director := "", year := 2024 } ]

/-- The category index of the scenario of the specification. -/
def sampleCategories : CategoryIndex :=
  [("trending", [2, 1])]

/-- The consistency of the search state: either no timer is pending, the flag
is off and the stored results are those of the current query over the current
item list (none for a blank query), or exactly one timer is pending, it is the
one held by the cleanup function, it captured the current query and item list,
the query is not blank and the flag is on. -/
def Consistent (s : SearchState) : Prop :=
  (s.timeouts = [] ∧ s.isSearching = false ∧
    s.searchResults =
      (if isBlank s.searchQuery then [] else scan s.movies s.searchQuery)) ∨
  (∃ timeoutId : Nat,
    s.timeouts = [⟨timeoutId, s.searchQuery, s.movies⟩] ∧
    s.cleanup = some timeoutId ∧ s.isSearching = true ∧
    isBlank s.searchQuery = false)

/-- An item titled "The Batman". -/
def theBatman : Movie :=
  { id := 7, title := "The Batman", description := "", genre := ["Action"],
    cast := ["Robert Pattinson"], director := "Matt Reeves", year := 2022 }

/-- An item released in 2022 whose title holds the digits 2025. -/
def classOf2025 : Movie :=
  { id := 9, title := "Class of 2025", description := "", genre := [],
    cast := [], director := "", year := 2022 }

/-- An item released in 2019. -/
def movieOf2019 : Movie :=
  { id := 11, title := "Parasite", description := "", genre := ["Thriller"],
    cast := [], director := "Bong Joon-ho", year := 2019 }

/-! ## Pagination cursors -/

/-- A value held in the `currentPage` object: a page number, or a string.  A
string arises when `+ 1` is applied to an operand that is not a number, and
then ends in the character `1`, so it is never empty. -/
inductive PageValue where
  | number (n : Nat)
  | text
  deriving DecidableEq, Repr

/-- The own properties of the `currentPage` object. -/
abbrev PageMap := List (String × PageValue)

/-- What `prev[categoryName]` evaluates to. -/
inductive PageProperty where
  /-- an own property of the cursor object -/
  | value (v : PageValue)
  /-- a member of `Object.prototype` (a function, or the prototype itself) -/
  | inherited
  /-- no property of that name on the object or its prototype -/
  | undefined
  deriving DecidableEq, Repr

/-- The expression `prev[categoryName]`. -/
def getPage (prev : PageMap) (categoryName : String) : PageProperty :=
  match prev.lookup categoryName with
  | some v => PageProperty.value v
  | none =>
    if categoryName ∈ objectPrototypeProperties then PageProperty.inherited
    else PageProperty.undefined

/-- The left operand of `+ 1` in `(prev[categoryName] || 1) + 1`. -/
inductive Operand where
  | number (n : Nat)
  | text
  | inherited
  deriving DecidableEq, Repr

/-- The expression `prev[categoryName] || 1`: `undefined` and the number `0`
are falsy and give `1`; a non-zero number, a non-empty string and a member of
`Object.prototype` are truthy and are kept. -/
def orOne : PageProperty → Operand
  | PageProperty.undefined => Operand.number 1
  | PageProperty.value (PageValue.number n) =>
    if n = 0 then Operand.number 1 else Operand.number n
  | PageProperty.value PageValue.text => Operand.text
  | PageProperty.inherited => Operand.inherited

/-- The expression `operand + 1`: addition on a number; on a string, a
function or an object it is string concatenation. -/
def plusOne : Operand → PageValue
  | Operand.number n => PageValue.number (n + 1)
  | Operand.text => PageValue.text
  | Operand.inherited => PageValue.text

/-- The object literal `{ ...prev, [key]: v }`: the own properties of `prev`
in order, with the property `key` overwritten in place or added at the end. -/
def setOwn (prev : PageMap) (key : String) (v : PageValue) : PageMap :=
  if (prev.lookup key).isSome then
    prev.map (fun p => if p.1 = key then (key, v) else p)
  else prev ++ [(key, v)]

/-- The updater `prev => ({ ...prev, [categoryName]: (prev[categoryName] || 1) + 1 })`
passed to `setCurrentPage` by `loadMoreMovies`. -/
def loadMoreUpdater (categoryName : String) (prev : PageMap) : PageMap :=
  setOwn prev categoryName (plusOne (orOne (getPage prev categoryName)))

/-- The assignment `initialPages[category] = 1` on a plain object: it defines
an own property, except for the key `__proto__`, whose inherited setter
ignores a value that is not an object. -/
def assignPage (obj : PageMap) (key : String) (v : PageValue) : PageMap :=
  if key = "__proto__" then obj else setOwn obj key v

/-- The object `initialPages` built by the initialisation effect from
`Object.keys(moviesData.categories)`. -/
def initialPages (categories : CategoryIndex) : PageMap :=
  (categories.map Prod.fst).foldl
    (fun initialPages category => assignPage initialPages category (PageValue.number 1)) []

/-! ## Featured movie -/

/-- The memo `featuredMovie` (lines 45-51); `none` is `undefined`.  The name
`featured` is no member of `Object.prototype`, so `categories.featured` is the
own property or `undefined`; an array is truthy also when it is empty. -/
def featuredMovie (movies : List Movie) (categories : CategoryIndex) : Option Movie :=
  match categories.lookup "featured" with
  | some featured =>
    match featured with
    | first :: _ => movies.find? (fun movie => movie.id == first)
    | [] => movies.head?
  | none => movies.head?

/-! ## Overlays -/

/-- The three state variables behind the video player and the details modal. -/
structure OverlayState where
  selectedMovie : Option Movie
  isPlaying : Bool
  showModal : Bool
  deriving DecidableEq, Repr

/-- The `useState` initial values of the overlay variables. -/
def initialOverlay : OverlayState :=
  { selectedMovie := none, isPlaying := false, showModal := false }

/-- The handler `handlePlay(movie)`. -/
def handlePlay (s : OverlayState) (movie : Movie) : OverlayState :=
  { s with selectedMovie := some movie, isPlaying := true }

/-- The handler `handleMoreInfo(movie)`. -/
def handleMoreInfo (s : OverlayState) (movie : Movie) : OverlayState :=
  { s with selectedMovie := some movie, showModal := true }

/-- The handler `handleClosePlayer()`. -/
def handleClosePlayer (s : OverlayState) : OverlayState :=
  { s with isPlaying := false, selectedMovie := none }

/-- The handler `handleCloseModal()`. -/
def handleCloseModal (s : OverlayState) : OverlayState :=
  { s with showModal := false, selectedMovie := none }

/-- A call of one of the four overlay handlers. -/
inductive OverlayEvent where
  | handlePlay (movie : Movie)
  | handleMoreInfo (movie : Movie)
  | handleClosePlayer
  | handleCloseModal
  deriving DecidableEq, Repr

/-- One handler call. -/
def overlayStep (s : OverlayState) : OverlayEvent → OverlayState
  | OverlayEvent.handlePlay movie => handlePlay s movie
  | OverlayEvent.handleMoreInfo movie => handleMoreInfo s movie
  | OverlayEvent.handleClosePlayer => handleClosePlayer s
  | OverlayEvent.handleCloseModal => handleCloseModal s

/-- The overlay state after a sequence of handler calls. -/
def overlayRun (s : OverlayState) (events : List OverlayEvent) : OverlayState :=
  events.foldl overlayStep s

/-- The render condition `isPlaying && selectedMovie` of the video player. -/
def playerVisible (s : OverlayState) : Bool :=
  s.isPlaying && s.selectedMovie.isSome

/-- The render condition `showModal && selectedMovie` of the details modal. -/
def modalVisible (s : OverlayState) : Bool :=
  s.showModal && s.selectedMovie.isSome

/-- Overlay states reachable from the initial values by handler calls. -/
inductive OverlayReachable : OverlayState → Prop where
  | initial : OverlayReachable initialOverlay
  | step (s : OverlayState) (e : OverlayEvent) :
      OverlayReachable s → OverlayReachable (overlayStep s e)

/-! ## The component state -/

/-- The state of the `App` component: the search part, the category index,
the pagination cursors, the overlay variables and the loading flag. -/
structure AppState where
  search : SearchState
  categories : CategoryIndex
  currentPage : PageMap
  overlay : OverlayState
  isLoading : Bool
  deriving DecidableEq, Repr

/-- The mounted component before the dataset has arrived. -/
def initialApp : AppState :=
  { search := mounted, categories := [], currentPage := [],
    overlay := initialOverlay, isLoading := true }

/-- The callback of the initialisation effect (lines 30-42) for a dataset with
these items and categories. -/
def loadData (s : AppState) (movies : List Movie) (categories : CategoryIndex) :
    AppState :=
  { s with search := step s.search (Event.setMovies movies),
           categories := categories,
           currentPage := initialPages categories,
           isLoading := false }

/-- The function `loadMoreMovies` of `App.js`: only `setCurrentPage` is called,
and no dependency of the search effect changes. -/
def loadMoreMovies (s : AppState) (categoryName : String) : AppState :=
  { s with currentPage := loadMoreUpdater categoryName s.currentPage }

/-- States of the component reached by the initial load of a dataset followed
by calls of `loadMoreMovies` with any names. -/
inductive PagesReachable (movies : List Movie) (categories : CategoryIndex) :
    AppState → Prop where
  | load : PagesReachable movies categories (loadData initialApp movies categories)
  | loadMore (s : AppState) (categoryName : String) :
      PagesReachable movies categories s →
      PagesReachable movies categories (loadMoreMovies s categoryName)

/-- The cursor of a name is a page number of the data model: a positive
integer. -/
def IsPageNumber (v : PageValue) : Prop :=
  ∃ n : Nat, v = PageValue.number n ∧ 1 ≤ n

/-! ## The scan over items with absent fields -/

/-- An element of the item list as a JavaScript object: each field the scan
reads may be absent (`none` is `undefined`). -/
structure RawMovie where
  id : Nat
  title : Option String
  description : Option String
  genre : Option (List String)
  cast : Option (List String)
  director : Option String
  year : Option Nat
  deriving DecidableEq, Repr

/-- A member access or method call on a field: it throws a `TypeError` when
the field is `undefined`. -/
def readField {α : Type} (field : Option α) : Except JSError α :=
  match field with
  | some v => Except.ok v
  | none => Except.error JSError.typeError

/-- The arrow function passed to `movies.filter`, on a raw item.  The operands
of `||` are evaluated from left to right and the evaluation stops at the first
that is true; an operand that is reached and reads an absent field throws. -/
def rawMatchesQuery (searchQuery : String) (movie : RawMovie) : Except JSError Bool := do
  let query := toLowerCase searchQuery
  let title ← readField movie.title
  if includes (toLowerCase title) query then return true
  let description ← readField movie.description
  if includes (toLowerCase description) query then return true
  let genre ← readField movie.genre
  if genre.any (fun g => includes (toLowerCase g) query) then return true
  let cast ← readField movie.cast
  if cast.any (fun actor => includes (toLowerCase actor) query) then return true
  let director ← readField movie.director
  if includes (toLowerCase director) query then return true
  let year ← readField movie.year
  return includes (yearToString year) query

/-- The call `movies.filter(...)` on raw items: the items are tested in order
and an exception thrown by a test ends the scan. -/
def rawScan : List RawMovie → String → Except JSError (List RawMovie)
  | [], _ => Except.ok []
  | movie :: rest, searchQuery =>
    match rawMatchesQuery searchQuery movie with
    | Except.error e => Except.error e
    | Except.ok keep =>
      match rawScan rest searchQuery with
      | Except.error e => Except.error e
      | Except.ok kept => Except.ok (if keep then movie :: kept else kept)

/-- An item with all its fields, as a raw item. -/
def Movie.toRaw (movie : Movie) : RawMovie :=
  { id := movie.id, title := some movie.title, description := some movie.description,
    genre := some movie.genre, cast := some movie.cast,
    director := some movie.director, year := some movie.year }

/-- An item without a title. -/
def untitledMovie : RawMovie :=
  { id := 5, title := none, description := some "A heist goes wrong.",
    genre := some ["Crime"], cast := some [], director := some "", year := some 2021 }

/-- A category index with a `featured` category whose first id is the id of
the second scenario item. -/
def featuredCategories : CategoryIndex :=
  [("featured", [2, 1]), ("trending", [1])]

/-- Open the details of an item, play it from the modal, close the player. -/
def playFromModal : List OverlayEvent :=
  [OverlayEvent.handleMoreInfo theBatman, OverlayEvent.handlePlay theBatman,
   OverlayEvent.handleClosePlayer]

/-- The invariant of the cursor object for a dataset: a cursor that is a
number is at least 1; every category name of the dataset other than
`__proto__` has a number as cursor; and so has every name with a cursor that
is no member of `Object.prototype`. -/
def PagesInv (categories : CategoryIndex) (pages : PageMap) : Prop :=
  (∀ (name : String) (n : Nat), pages.lookup name = some (PageValue.number n) → 1 ≤ n) ∧
  (∀ name ∈ categories.map Prod.fst, name ≠ "__proto__" →
    ∃ n : Nat, pages.lookup name = some (PageValue.number n)) ∧
  (∀ name : String, name ∉ objectPrototypeProperties →
    ∀ v : PageValue, pages.lookup name = some v → ∃ n : Nat, v = PageValue.number n)

/-! ## Query engine: commits and effect runs -/

/-- The search state at the granularity of React commits.  A state change is
first committed with its render, and the search effect runs afterwards;
`effectPending` says that a dependency of the effect changed in the last
commit and that the effect has not yet run for it.  In such a commit the
component is rendered with the new query or item list and the old results and
flag. -/
structure Commit where
  state : SearchState
  effectPending : Bool
  deriving DecidableEq, Repr

/-- The first commit of the component: the `useState` initial values are
rendered and the effect has not yet run. -/
def firstCommit : Commit :=
  { state := initialState, effectPending := true }

/-- The run of the outstanding effect, if there is one. -/
def flushEffect (c : Commit) : Commit :=
  if c.effectPending then { state := searchEffect c.state, effectPending := false }
  else c

/-- The events at the granularity of commits. -/
inductive CommitEvent where
  /-- `setSearchQuery(query)` and the commit of the render it causes -/
  | setSearchQuery (query : String)
  /-- `setMovies(movies)` with a new array and the commit of its render -/
  | setMovies (movies : List Movie)
  /-- the effect scheduled by the last commit runs -/
  | effectRuns
  /-- the 300 ms delay of the timer with this id has elapsed -/
  | timeoutFires (timeoutId : Nat)
  deriving DecidableEq, Repr

/-- One transition at the granularity of commits.  Setting the query to its
current value causes no render.  React runs an outstanding effect before it
renders the next state change.  A timer callback changes no dependency of the
effect. -/
def commitStep (c : Commit) : CommitEvent → Commit
  | CommitEvent.setSearchQuery query =>
    if query = c.state.searchQuery then c
    else { state := { (flushEffect c).state with searchQuery := query },
           effectPending := true }
  | CommitEvent.setMovies movies =>
    { state := { (flushEffect c).state with movies := movies },
      effectPending := true }
  | CommitEvent.effectRuns => flushEffect c
  | CommitEvent.timeoutFires timeoutId =>
    { c with state := step c.state (Event.timeoutFires timeoutId) }

/-- The commit reached after a sequence of events. -/
def commitRun (c : Commit) (events : List CommitEvent) : Commit :=
  events.foldl commitStep c

/-- Commits reachable from the first commit. -/
inductive CommitReachable : Commit → Prop where
  | first : CommitReachable firstCommit
  | step (c : Commit) (e : CommitEvent) :
      CommitReachable c → CommitReachable (commitStep c e)

/-- Every pending timer is the one held by the cleanup function of the last
effect run. -/
def Covered (s : SearchState) : Prop :=
  ∀ t ∈ s.timeouts, s.cleanup = some t.id

/-- The scenario items are loaded, the query "guard" is typed and its scan
runs, then the query is changed to "matrix": the last event leaves the commit
of the new query with the effect still to run. -/
def staleEvents : List CommitEvent :=
  [CommitEvent.effectRuns, CommitEvent.setMovies sampleMovies, CommitEvent.effectRuns,
   CommitEvent.setSearchQuery "guard", CommitEvent.effectRuns,
   CommitEvent.timeoutFires 1, CommitEvent.setSearchQuery "matrix"]

/-- The same events without the last: the scan of "guard" has run and no
effect is outstanding. -/
def settledEvents : List CommitEvent :=
  [CommitEvent.effectRuns, CommitEvent.setMovies sampleMovies, CommitEvent.effectRuns,
   CommitEvent.setSearchQuery "guard", CommitEvent.effectRuns,
   CommitEvent.timeoutFires 1]

/-! ## Catalog store: lemmas -/

theorem slice_of_nat {α : Type} (xs : List α) (a b : Nat) :
    slice xs (a : Int) ((a : Int) + (b : Int)) = (xs.drop a).take b := by
  unfold slice relativeIndex
  have h1 : ¬ ((a : Int) < 0) := by omega
  have h2 : ¬ ((a : Int) + (b : Int) < 0) := by omega
  simp only [h1, h2, if_false]
  have e1 : ((a : Int)).toNat = a := by simp
  have e2 : ((a : Int) + (b : Int)).toNat = a + b := by omega
  rw [e1, e2]
  by_cases hle : a ≤ xs.length
  · rw [Nat.min_eq_left hle]
    by_cases hle2 : a + b ≤ xs.length
    · rw [Nat.min_eq_left hle2]; congr 1; omega
    · rw [Nat.min_eq_right (by omega)]
      rw [List.take_of_length_le (by simp), List.take_of_length_le (by simp; omega)]
  · have hd : xs.drop a = [] := List.drop_of_length_le (by omega)
    have hd2 : xs.drop (min a xs.length) = [] := by
      rw [Nat.min_eq_right (by omega)]; simp
    rw [hd, hd2]; simp

theorem getProperty_of_resolves (categories : CategoryIndex) (categoryName : String)
    (h : ResolvesToIds categories categoryName) :
    orEmptyArray (getProperty categories categoryName) =
      Property.array (categoryIds categories categoryName) := by
  unfold getProperty categoryIds
  cases hl : categories.lookup categoryName with
  | some ids => simp [orEmptyArray]
  | none =>
    rcases h with h | h
    · simp [hl] at h
    · simp [h, orEmptyArray]

theorem filterBoolean_map (movies : List Movie) (ids : List Nat) :
    filterBoolean (ids.map (fun movieId => findById movies movieId)) =
      resolveIds movies ids := by
  unfold filterBoolean resolveIds
  rw [List.filterMap_map]; rfl

/-- The page of a resolving name, with the slice written with `drop`/`take`. -/
theorem getMoviesForCategory_eq (movies : List Movie) (categories : CategoryIndex)
    (categoryName : String) (page itemsPerPage : Nat) (hpage : 1 ≤ page)
    (h : ResolvesToIds categories categoryName) :
    getMoviesForCategory movies categories categoryName (page : Int) (itemsPerPage : Int) =
      Except.ok (resolveIds movies
        (((categoryIds categories categoryName).drop ((page - 1) * itemsPerPage)).take
          itemsPerPage)) := by
  unfold getMoviesForCategory
  simp only [getProperty_of_resolves categories categoryName h]
  have e : ((page : Int) - 1) * (itemsPerPage : Int) = (((page - 1) * itemsPerPage : Nat) : Int) := by
    push_cast [Nat.cast_sub hpage]; ring
  rw [e, slice_of_nat, filterBoolean_map]

theorem findById_some {movies : List Movie} {movieId : Nat} {m : Movie}
    (h : findById movies movieId = some m) : m ∈ movies ∧ m.id = movieId := by
  unfold findById at h
  refine ⟨List.mem_of_find?_eq_some h, ?_⟩
  have := List.find?_some h
  simpa using this

theorem findById_isSome_iff (movies : List Movie) (movieId : Nat) :
    (findById movies movieId).isSome = true ↔ ∃ m ∈ movies, m.id = movieId := by
  unfold findById
  simp [List.find?_isSome]

theorem mem_resolveIds {movies : List Movie} {ids : List Nat} {m : Movie} :
    m ∈ resolveIds movies ids ↔ ∃ movieId ∈ ids, findById movies movieId = some m := by
  unfold resolveIds
  simp [List.mem_filterMap]

theorem resolveIds_append (movies : List Movie) (xs ys : List Nat) :
    resolveIds movies (xs ++ ys) = resolveIds movies xs ++ resolveIds movies ys := by
  unfold resolveIds
  simp [List.filterMap_append]

theorem resolveIds_length_le (movies : List Movie) (ids : List Nat) :
    (resolveIds movies ids).length ≤ ids.length := by
  unfold resolveIds
  exact List.length_filterMap_le _ _

/-- The ids of the resolved items are a subsequence of the ids given: the
order of the ids is kept and nothing is added. -/
theorem resolveIds_ids_sublist (movies : List Movie) (ids : List Nat) :
    List.Sublist ((resolveIds movies ids).map (fun m => m.id)) ids := by
  induction ids with
  | nil => simp [resolveIds]
  | cons i rest ih =>
    unfold resolveIds at ih ⊢
    rw [List.filterMap_cons]
    cases hf : findById movies i with
    | none => simpa using List.Sublist.cons i ih
    | some m =>
      have hid := (findById_some hf).2
      simp only [List.map_cons, hid]
      exact List.Sublist.cons₂ i ih

theorem take_add_mul {α : Type} (xs : List α) (k n : Nat) :
    xs.take ((k + 1) * n) = xs.take (k * n) ++ (xs.drop (k * n)).take n := by
  rw [Nat.succ_mul, List.take_add]

/-- A name that is neither a key of the index nor a member of
`Object.prototype` gives the empty page, whatever the page and the size. -/
theorem getMoviesForCategory_undefined (movies : List Movie)
    (categories : CategoryIndex) (categoryName : String) (page itemsPerPage : Int)
    (hkey : categories.lookup categoryName = none)
    (hproto : categoryName ∉ objectPrototypeProperties) :
    getMoviesForCategory movies categories categoryName page itemsPerPage = Except.ok [] := by
  unfold getMoviesForCategory getProperty
  simp [hkey, hproto, orEmptyArray, slice, filterBoolean]

/-! ## Catalog store: pagination -/

/-- The concatenation of the pages `1 .. k`, with the first `k * itemsPerPage`
ids written with `take`. -/
theorem pagesUpTo_eq (movies : List Movie) (categories : CategoryIndex)
    (categoryName : String) (itemsPerPage k : Nat)
    (h : ResolvesToIds categories categoryName) :
    pagesUpTo movies categories categoryName (itemsPerPage : Int) k =
      Except.ok (resolveIds movies
        ((categoryIds categories categoryName).take (k * itemsPerPage))) := by
  induction k with
  | zero => simp [pagesUpTo, resolveIds]
  | succ k ih =>
    have hp := getMoviesForCategory_eq movies categories categoryName (k + 1)
      itemsPerPage (by omega) h
    have hc : (((k + 1 : Nat)) : Int) = (k : Int) + 1 := by push_cast; rfl
    rw [hc] at hp
    unfold pagesUpTo
    rw [ih, hp]
    simp only [Nat.add_sub_cancel]
    rw [take_add_mul, resolveIds_append]

/-- C1: for a category name that resolves to an id sequence, the pages
`1 .. k` of size `itemsPerPage`, concatenated, are the first
`k * itemsPerPage` ids of the category, each replaced by the first item of the
list that has that id, ids without an item omitted.  The ids of the items
returned follow the id order of the category; every item returned is an item
of the list whose id is among those ids, and every one of those ids that some
item carries is the id of a returned item. -/
theorem pages_concat_eq_first_ids (movies : List Movie) (categories : CategoryIndex)
    (categoryName : String) (itemsPerPage k : Nat) (hsize : 0 < itemsPerPage)
    (h : ResolvesToIds categories categoryName) :
    ∃ result : List Movie,
      pagesUpTo movies categories categoryName (itemsPerPage : Int) k =
        Except.ok result ∧
      result = ((categoryIds categories categoryName).take (k * itemsPerPage)).filterMap
        (fun movieId => movies.find? (fun movie => movie.id == movieId)) ∧
      List.Sublist (result.map (fun m => m.id))
        ((categoryIds categories categoryName).take (k * itemsPerPage)) ∧
      (∀ m ∈ result, m ∈ movies ∧
        m.id ∈ (categoryIds categories categoryName).take (k * itemsPerPage)) ∧
      (∀ movieId ∈ (categoryIds categories categoryName).take (k * itemsPerPage),
        (∃ m ∈ movies, m.id = movieId) → ∃ m ∈ result, m.id = movieId) := by
  have _ := hsize
  refine ⟨_, pagesUpTo_eq movies categories categoryName itemsPerPage k h, rfl,
    resolveIds_ids_sublist movies _, ?_, ?_⟩
  · intro m hm
    obtain ⟨movieId, hmem, hfind⟩ := mem_resolveIds.mp hm
    obtain ⟨h1, h2⟩ := findById_some hfind
    exact ⟨h1, h2 ▸ hmem⟩
  · intro movieId hmem hex
    have hs := (findById_isSome_iff movies movieId).mpr hex
    obtain ⟨m, hm⟩ := Option.isSome_iff_exists.mp hs
    exact ⟨m, mem_resolveIds.mpr ⟨movieId, hmem, hm⟩, (findById_some hm).2⟩

/-- The first two pages of size one of the scenario category are its two
items in category order. -/
theorem pages_concat_eq_first_ids_witness :
    0 < 1 ∧ ResolvesToIds sampleCategories "trending" ∧
    ∃ result : List Movie,
      pagesUpTo sampleMovies sampleCategories "trending" ((1 : Nat) : Int) 2 =
        Except.ok result ∧
      result = ((categoryIds sampleCategories "trending").take (2 * 1)).filterMap
        (fun movieId => sampleMovies.find? (fun movie => movie.id == movieId)) ∧
      List.Sublist (result.map (fun m => m.id))
        ((categoryIds sampleCategories "trending").take (2 * 1)) ∧
      (∀ m ∈ result, m ∈ sampleMovies ∧
        m.id ∈ (categoryIds sampleCategories "trending").take (2 * 1)) ∧
      (∀ movieId ∈ (categoryIds sampleCategories "trending").take (2 * 1),
        (∃ m ∈ sampleMovies, m.id = movieId) → ∃ m ∈ result, m.id = movieId) :=
  ⟨by decide, by decide,
    pages_concat_eq_first_ids sampleMovies sampleCategories "trending" 1 2
      (by decide) (by decide)⟩

/-- C2: for a category name that resolves to an id sequence, a page `page ≥ 1`
is the slice of the category ids from `(page-1)*itemsPerPage`, of length
`itemsPerPage` (clipped to the ids available), with every id replaced by the
item of that id and the ids of no item dropped; every item returned is an item
of the list whose id lies in the slice, and every id of the slice that some
item carries is the id of a returned item. -/
theorem page_eq_resolved_slice (movies : List Movie) (categories : CategoryIndex)
    (categoryName : String) (page itemsPerPage : Nat) (hpage : 1 ≤ page)
    (hsize : 0 < itemsPerPage) (h : ResolvesToIds categories categoryName) :
    ∃ result : List Movie,
      getMoviesForCategory movies categories categoryName (page : Int)
          (itemsPerPage : Int) = Except.ok result ∧
      result = (((categoryIds categories categoryName).drop
          ((page - 1) * itemsPerPage)).take itemsPerPage).filterMap
            (fun movieId => movies.find? (fun movie => movie.id == movieId)) ∧
      (∀ m ∈ result, m ∈ movies ∧
        m.id ∈ ((categoryIds categories categoryName).drop
          ((page - 1) * itemsPerPage)).take itemsPerPage) ∧
      (∀ movieId ∈ ((categoryIds categories categoryName).drop
          ((page - 1) * itemsPerPage)).take itemsPerPage,
        (∃ m ∈ movies, m.id = movieId) → ∃ m ∈ result, m.id = movieId) := by
  have _ := hsize
  refine ⟨_, getMoviesForCategory_eq movies categories categoryName page
    itemsPerPage hpage h, rfl, ?_, ?_⟩
  · intro m hm
    obtain ⟨movieId, hmem, hfind⟩ := mem_resolveIds.mp hm
    obtain ⟨h1, h2⟩ := findById_some hfind
    exact ⟨h1, h2 ▸ hmem⟩
  · intro movieId hmem hex
    have hs := (findById_isSome_iff movies movieId).mpr hex
    obtain ⟨m, hm⟩ := Option.isSome_iff_exists.mp hs
    exact ⟨m, mem_resolveIds.mpr ⟨movieId, hmem, hm⟩, (findById_some hm).2⟩

/-- Page one of size one of the scenario category. -/
theorem page_eq_resolved_slice_witness :
    1 ≤ 1 ∧ 0 < 1 ∧ ResolvesToIds sampleCategories "trending" ∧
    ∃ result : List Movie,
      getMoviesForCategory sampleMovies sampleCategories "trending" ((1 : Nat) : Int)
          ((1 : Nat) : Int) = Except.ok result ∧
      result = (((categoryIds sampleCategories "trending").drop
          ((1 - 1) * 1)).take 1).filterMap
            (fun movieId => sampleMovies.find? (fun movie => movie.id == movieId)) ∧
      (∀ m ∈ result, m ∈ sampleMovies ∧
        m.id ∈ ((categoryIds sampleCategories "trending").drop
          ((1 - 1) * 1)).take 1) ∧
      (∀ movieId ∈ ((categoryIds sampleCategories "trending").drop
          ((1 - 1) * 1)).take 1,
        (∃ m ∈ sampleMovies, m.id = movieId) → ∃ m ∈ result, m.id = movieId) :=
  ⟨by decide, by decide, by decide,
    page_eq_resolved_slice sampleMovies sampleCategories "trending" 1 1
      (by decide) (by decide) (by decide)⟩

/-- C3: for a category name that resolves to an id sequence, a page
`page ≥ 1` of size `itemsPerPage > 0` has at most `itemsPerPage` items, and it
is empty as soon as `(page-1)*itemsPerPage` reaches the number of ids of the
category. -/
theorem page_length_le_and_empty_beyond (movies : List Movie)
    (categories : CategoryIndex) (categoryName : String) (page itemsPerPage : Nat)
    (hpage : 1 ≤ page) (hsize : 0 < itemsPerPage)
    (h : ResolvesToIds categories categoryName) :
    ∃ result : List Movie,
      getMoviesForCategory movies categories categoryName (page : Int)
          (itemsPerPage : Int) = Except.ok result ∧
      result.length ≤ itemsPerPage ∧
      ((categoryIds categories categoryName).length ≤ (page - 1) * itemsPerPage →
        result = []) := by
  have _ := hsize
  refine ⟨_, getMoviesForCategory_eq movies categories categoryName page
    itemsPerPage hpage h, ?_, ?_⟩
  · refine (resolveIds_length_le movies _).trans ?_
    rw [List.length_take]
    exact Nat.min_le_left _ _
  · intro hbeyond
    rw [List.drop_of_length_le hbeyond]
    simp [resolveIds]

/-- Page three of size one of the two-item scenario category is empty. -/
theorem page_length_le_and_empty_beyond_witness :
    1 ≤ 3 ∧ 0 < 1 ∧ ResolvesToIds sampleCategories "trending" ∧
    ∃ result : List Movie,
      getMoviesForCategory sampleMovies sampleCategories "trending" ((3 : Nat) : Int)
          ((1 : Nat) : Int) = Except.ok result ∧
      result.length ≤ 1 ∧
      ((categoryIds sampleCategories "trending").length ≤ (3 - 1) * 1 →
        result = []) :=
  ⟨by decide, by decide, by decide,
    page_length_le_and_empty_beyond sampleMovies sampleCategories "trending" 3 1
      (by decide) (by decide) (by decide)⟩

/-- C4: for a category name that is not a key of the category index (and is
no member of `Object.prototype`, names that no caller passes), the page is the
empty sequence, without failure, for every page and every page size, negative
and zero values included. -/
theorem unknown_category_empty (movies : List Movie) (categories : CategoryIndex)
    (categoryName : String) (page itemsPerPage : Int)
    (hkey : categoryName ∉ categories.map Prod.fst)
    (hproto : categoryName ∉ objectPrototypeProperties) :
    getMoviesForCategory movies categories categoryName page itemsPerPage =
      Except.ok [] := by
  apply getMoviesForCategory_undefined movies categories categoryName page
    itemsPerPage _ hproto
  rw [List.lookup_eq_none_iff]
  intro p hp
  have hne : categoryName ≠ p.1 := by
    intro he
    exact hkey (List.mem_map.mpr ⟨p, hp, he.symm⟩)
  simpa using hne

/-- The name `fantasy`, which the rows of the page ask for, is not a category
of the scenario index: page 3 of size 20 is empty. -/
theorem unknown_category_empty_witness :
    "fantasy" ∉ sampleCategories.map Prod.fst ∧
    "fantasy" ∉ objectPrototypeProperties ∧
    getMoviesForCategory sampleMovies sampleCategories "fantasy" 3 20 = Except.ok [] :=
  ⟨by decide, by decide,
    unknown_category_empty sampleMovies sampleCategories "fantasy" 3 20
      (by decide) (by decide)⟩

/-- Called directly with the name `constructor`, which is no key of the index
and which none of the callers passes, the function throws: the lookup finds
the member inherited from `Object.prototype`, which is truthy and has no
`slice` method. -/
theorem getMoviesForCategory_constructor_throws :
    sampleCategories.lookup "constructor" = none ∧
      getMoviesForCategory sampleMovies sampleCategories "constructor" 1 20 =
        Except.error JSError.typeError ∧
      getMoviesForCategory [] [] "constructor" 1 20 =
        Except.error JSError.typeError := by
  refine ⟨by decide, rfl, rfl⟩

/-! ## Query engine: the match predicate -/

theorem includesChars_iff (s q : List Char) : includesChars s q = true ↔ q <:+: s := by
  induction s with
  | nil =>
    cases q with
    | nil => simp [includesChars]
    | cons c q => simp [includesChars, List.isPrefixOf]
  | cons c s ih =>
    unfold includesChars
    rw [Bool.or_eq_true, ih, List.isPrefixOf_iff_prefix, List.infix_cons_iff]

theorem includes_iff (s query : String) : includes s query = true ↔ IsSubstring query s := by
  unfold includes IsSubstring
  exact includesChars_iff _ _

/-- The filter predicate of the code and the match predicate of the
specification agree on every query and item. -/
theorem matchesQuery_iff (searchQuery : String) (movie : Movie) :
    matchesQuery searchQuery movie = true ↔ SpecMatches searchQuery movie := by
  unfold matchesQuery SpecMatches yearToString
  simp only [Bool.or_eq_true, List.any_eq_true, includes_iff, or_assoc]

theorem scan_eq_filter_spec (movies : List Movie) (searchQuery : String) :
    scan movies searchQuery =
      movies.filter (fun movie => decide (SpecMatches searchQuery movie)) := by
  unfold scan
  congr 1
  funext movie
  rw [Bool.eq_iff_iff, decide_eq_true_iff]
  exact matchesQuery_iff searchQuery movie

theorem mem_scan {movies : List Movie} {searchQuery : String} {movie : Movie} :
    movie ∈ scan movies searchQuery ↔ movie ∈ movies ∧ SpecMatches searchQuery movie := by
  unfold scan
  rw [List.mem_filter, matchesQuery_iff]

/-- A query made of white space only (the empty query included) is blank. -/
theorem isBlank_of_all_whiteSpace (query : String)
    (h : ∀ c ∈ query.data, isWhiteSpace c = true) : isBlank query = true := by
  unfold isBlank trim
  have : query.data.dropWhile isWhiteSpace = [] := by
    rw [List.dropWhile_eq_nil_iff]; exact h
  simp [this]

/-- A blank query is made of white space only. -/
theorem all_whiteSpace_of_isBlank (query : String) (h : isBlank query = true) :
    ∀ c ∈ query.data, isWhiteSpace c = true := by
  unfold isBlank trim at h
  simp only [List.isEmpty_iff, List.reverse_eq_nil_iff] at h
  rw [List.dropWhile_eq_nil_iff] at h
  rw [← List.dropWhile_eq_nil_iff]
  cases hd : query.data.dropWhile isWhiteSpace with
  | nil => rfl
  | cons c rest =>
    exfalso
    have hc : isWhiteSpace c = true := h c (by rw [hd]; simp)
    have hnot := List.head_dropWhile_not isWhiteSpace query.data (by rw [hd]; simp)
    simp [hd, hc] at hnot

/-! ## Query engine: the transition system -/

theorem runCleanup_eq_nil {s : SearchState} (h : Consistent s) : runCleanup s = [] := by
  unfold runCleanup
  rcases h with ⟨ht, _, _⟩ | ⟨timeoutId, ht, hc, _, _⟩
  · rw [ht]; cases s.cleanup <;> simp [clearTimeout]
  · rw [hc, ht]; simp [clearTimeout]

theorem searchEffect_blank (s : SearchState) (hc : runCleanup s = [])
    (hb : isBlank s.searchQuery = true) :
    searchEffect s =
      { s with searchResults := [], isSearching := false, timeouts := [],
               cleanup := none, writes := s.writes ++ [ResultWrite.reset] } := by
  unfold searchEffect
  simp [hc, hb]

theorem searchEffect_nonblank (s : SearchState) (hc : runCleanup s = [])
    (hb : isBlank s.searchQuery = false) :
    searchEffect s =
      { s with isSearching := true,
               timeouts := [⟨s.nextTimeoutId, s.searchQuery, s.movies⟩],
               nextTimeoutId := s.nextTimeoutId + 1,
               cleanup := some s.nextTimeoutId } := by
  unfold searchEffect
  simp [hc, hb]

/-- A run of the effect with no timer left by the cleanup ends in a consistent
state. -/
theorem searchEffect_consistent (s : SearchState) (hc : runCleanup s = []) :
    Consistent (searchEffect s) := by
  cases hb : isBlank s.searchQuery with
  | true =>
    rw [searchEffect_blank s hc hb]
    left
    simp [hb]
  | false =>
    rw [searchEffect_nonblank s hc hb]
    right
    exact ⟨s.nextTimeoutId, rfl, rfl, rfl, hb⟩

/-- The step of a timer that is pending alone. -/
theorem step_timeoutFires_single (s : SearchState) (t : Timeout)
    (ht : s.timeouts = [t]) :
    step s (Event.timeoutFires t.id) =
      { s with timeouts := [], searchResults := scan t.movies t.searchQuery,
               isSearching := false,
               writes := s.writes ++ [ResultWrite.scanned t.searchQuery] } := by
  simp [step, ht, clearTimeout, timeoutCallback]

theorem step_consistent (s : SearchState) (e : Event) (h : Consistent s) :
    Consistent (step s e) := by
  cases e with
  | handleSearch query =>
    unfold step
    by_cases hq : query = s.searchQuery
    · simpa [hq] using h
    · simp only [hq, if_false]
      exact searchEffect_consistent _ (runCleanup_eq_nil h : runCleanup s = [])
  | setMovies movies =>
    unfold step
    exact searchEffect_consistent _ (runCleanup_eq_nil h : runCleanup s = [])
  | timeoutFires timeoutId =>
    rcases h with ⟨ht, hf, hr⟩ | ⟨tid, ht, hc, hf, hb⟩
    · have : step s (Event.timeoutFires timeoutId) = s := by simp [step, ht]
      rw [this]; exact Or.inl ⟨ht, hf, hr⟩
    · by_cases hid : tid = timeoutId
      · subst hid
        have := step_timeoutFires_single s ⟨tid, s.searchQuery, s.movies⟩ ht
        simp only at this
        rw [this]
        left
        simp [hb]
      · have : step s (Event.timeoutFires timeoutId) = s := by
          simp [step, ht, hid]
        rw [this]; exact Or.inr ⟨tid, ht, hc, hf, hb⟩

theorem mounted_consistent : Consistent mounted := by
  unfold mounted
  exact searchEffect_consistent _ rfl

/-- Every reachable state is consistent. -/
theorem reachable_consistent {s : SearchState} (h : Reachable s) : Consistent s := by
  induction h with
  | mounted => exact mounted_consistent
  | step s e _ ih => exact step_consistent s e ih

theorem elapse_single (s : SearchState) (t : Timeout) (ht : s.timeouts = [t]) :
    elapse s =
      { s with timeouts := [], searchResults := scan t.movies t.searchQuery,
               isSearching := false,
               writes := s.writes ++ [ResultWrite.scanned t.searchQuery] } := by
  unfold elapse
  rw [ht]
  simp only [List.foldl_cons, List.foldl_nil]
  exact step_timeoutFires_single s t ht

theorem elapse_none (s : SearchState) (ht : s.timeouts = []) : elapse s = s := by
  unfold elapse
  rw [ht]; rfl

/-- The completed search: nothing for a blank query, the scan of the item list
for any other query. -/
theorem search_eq (movies : List Movie) (query : String) :
    search movies query = if isBlank query then [] else scan movies query := by
  have hl : loaded movies =
      { movies := movies, searchQuery := "", searchResults := [],
        isSearching := false, timeouts := [], nextTimeoutId := 1, cleanup := none,
        writes := [ResultWrite.reset, ResultWrite.reset] } := by
    rfl
  unfold search
  rw [hl]
  by_cases hq : query = ""
  · subst hq
    have hb : isBlank "" = true := by decide
    simp [step, elapse, hb]
  · cases hb : isBlank query with
    | true =>
      simp only [step, hq, if_false]
      rw [searchEffect_blank _ (by rfl) hb, elapse_none _ rfl]
      simp
    | false =>
      simp only [step, hq, if_false]
      rw [searchEffect_nonblank _ (by rfl) hb, elapse_single _ _ rfl]
      simp

theorem isBlank_eq_false_of_trim_ne (query : String) (h : trim query ≠ "") :
    isBlank query = false := by
  unfold isBlank
  cases hd : (trim query).data with
  | nil =>
    exfalso
    apply h
    have : trim query = ⟨(trim query).data⟩ := rfl
    rw [this, hd]
  | cons c rest => rfl

theorem search_eq_scan (movies : List Movie) (query : String) (h : trim query ≠ "") :
    search movies query = scan movies query := by
  rw [search_eq, isBlank_eq_false_of_trim_ne query h]
  simp

theorem digitChar_lowerChar (d : Nat) (h : d < 10) :
    lowerChar (Nat.digitChar d) = Nat.digitChar d := by
  interval_cases d <;> decide

theorem toDigitsCore_lowerChar (fuel : Nat) :
    ∀ (n : Nat) (ds : List Char), (∀ c ∈ ds, lowerChar c = c) →
      ∀ c ∈ Nat.toDigitsCore 10 fuel n ds, lowerChar c = c := by
  induction fuel with
  | zero => intro n ds hds c hc; exact hds c (by simpa [Nat.toDigitsCore] using hc)
  | succ fuel ih =>
    intro n ds hds c hc
    have hcons : ∀ c ∈ Nat.digitChar (n % 10) :: ds, lowerChar c = c := by
      intro c hc
      rcases List.mem_cons.mp hc with rfl | hc
      · exact digitChar_lowerChar _ (Nat.mod_lt _ (by decide))
      · exact hds c hc
    unfold Nat.toDigitsCore at hc
    by_cases hz : n / 10 = 0
    · simp only [hz, if_true] at hc
      exact hcons c hc
    · simp only [hz, if_false] at hc
      exact ih _ _ hcons c hc

/-- Lowercasing leaves every substring of a decimal year string unchanged. -/
theorem toLowerCase_of_substring_year (query : String) (year : Nat)
    (h : IsSubstring query (yearToString year)) : toLowerCase query = query := by
  unfold IsSubstring yearToString at h
  have hdigits : ∀ c ∈ (Nat.repr year).data, lowerChar c = c := by
    intro c hc
    exact toDigitsCore_lowerChar _ _ [] (by simp) c
      (by simpa [Nat.repr, Nat.toDigits, List.asString] using hc)
  have hq : ∀ c ∈ query.data, lowerChar c = c := fun c hc => hdigits c (h.subset hc)
  unfold toLowerCase
  have : query.data.map lowerChar = query.data := by
    conv_rhs => rw [← List.map_id query.data]
    exact List.map_congr_left (fun c hc => by simpa using hq c hc)
  rw [this]

/-! ## Query engine: the completed search -/

/-- C5: for a query whose trimmed form is not empty, the completed search is
the stable filter of the item list by the match predicate of the
specification: the items, in catalog order and with nothing else, for which
the lowercased query is a substring of the lowercased title, description, a
genre tag, a cast name, the director, or the decimal string of the year. -/
theorem search_eq_stable_filter (movies : List Movie) (query : String)
    (hq : trim query ≠ "") :
    search movies query =
        movies.filter (fun movie => decide (SpecMatches query movie)) ∧
      List.Sublist (search movies query) movies ∧
      ∀ movie, movie ∈ search movies query ↔
        movie ∈ movies ∧ SpecMatches query movie := by
  rw [search_eq_scan movies query hq]
  refine ⟨scan_eq_filter_spec movies query, ?_, fun movie => mem_scan⟩
  unfold scan
  exact List.filter_sublist _

/-- The scenario of the specification: the query "guard" over the two items. -/
theorem search_eq_stable_filter_witness :
    trim "guard" ≠ "" ∧
    (search sampleMovies "guard" =
        sampleMovies.filter (fun movie => decide (SpecMatches "guard" movie)) ∧
      List.Sublist (search sampleMovies "guard") sampleMovies ∧
      ∀ movie, movie ∈ search sampleMovies "guard" ↔
        movie ∈ sampleMovies ∧ SpecMatches "guard" movie) :=
  ⟨by decide, search_eq_stable_filter sampleMovies "guard" (by decide)⟩

/-- C7: an item of the list whose lowercased title contains the lowercased
query is in the completed search for every non-blank query; so an item titled
"The Batman" is found by "batman", by "BATMAN" and by "atma". -/
theorem search_title_substring (movies : List Movie) (movie : Movie)
    (hmem : movie ∈ movies) :
    (∀ query : String, trim query ≠ "" →
      IsSubstring (toLowerCase query) (toLowerCase movie.title) →
      movie ∈ search movies query) ∧
    (movie.title = "The Batman" →
      movie ∈ search movies "batman" ∧ movie ∈ search movies "BATMAN" ∧
        movie ∈ search movies "atma") := by
  have general : ∀ query : String, trim query ≠ "" →
      IsSubstring (toLowerCase query) (toLowerCase movie.title) →
      movie ∈ search movies query := by
    intro query hq hsub
    rw [search_eq_scan movies query hq]
    exact mem_scan.mpr ⟨hmem, Or.inl hsub⟩
  refine ⟨general, fun htitle => ⟨?_, ?_, ?_⟩⟩
  · exact general "batman" (by decide) (by rw [htitle]; decide)
  · exact general "BATMAN" (by decide) (by rw [htitle]; decide)
  · exact general "atma" (by decide) (by rw [htitle]; decide)

/-- The item `theBatman` in a list with the scenario items. -/
theorem search_title_substring_witness :
    theBatman ∈ sampleMovies ++ [theBatman] ∧
    ((∀ query : String, trim query ≠ "" →
      IsSubstring (toLowerCase query) (toLowerCase theBatman.title) →
      theBatman ∈ search (sampleMovies ++ [theBatman]) query) ∧
    (theBatman.title = "The Batman" →
      theBatman ∈ search (sampleMovies ++ [theBatman]) "batman" ∧
        theBatman ∈ search (sampleMovies ++ [theBatman]) "BATMAN" ∧
        theBatman ∈ search (sampleMovies ++ [theBatman]) "atma")) :=
  ⟨by decide, search_title_substring (sampleMovies ++ [theBatman]) theBatman (by decide)⟩

/-- C8, as stated, fails: the item `classOf2025` of year 2022 is in the result
of the query "2025", through its title, although "2025" is no substring of
"2022". -/
theorem search_2025_not_only_year :
    classOf2025 ∈ search [classOf2025] "2025" ∧
      ¬ IsSubstring "2025" (yearToString classOf2025.year) := by
  decide

/-- C8, amended: the result of the query "2025" holds exactly the items of the
list in which "2025" occurs in the lowercased title, description, a genre tag,
a cast name, the director, or the decimal string of the year; an item found
whose text fields do not hold "2025" has it in its year string. -/
theorem search_2025_iff (movies : List Movie) (movie : Movie) :
    (movie ∈ search movies "2025" ↔
      movie ∈ movies ∧
        (IsSubstring "2025" (toLowerCase movie.title) ∨
         IsSubstring "2025" (toLowerCase movie.description) ∨
         (∃ g ∈ movie.genre, IsSubstring "2025" (toLowerCase g)) ∨
         (∃ actor ∈ movie.cast, IsSubstring "2025" (toLowerCase actor)) ∨
         IsSubstring "2025" (toLowerCase movie.director) ∨
         IsSubstring "2025" (yearToString movie.year))) ∧
    (movie ∈ search movies "2025" →
      ¬ IsSubstring "2025" (toLowerCase movie.title) →
      ¬ IsSubstring "2025" (toLowerCase movie.description) →
      (∀ g ∈ movie.genre, ¬ IsSubstring "2025" (toLowerCase g)) →
      (∀ actor ∈ movie.cast, ¬ IsSubstring "2025" (toLowerCase actor)) →
      ¬ IsSubstring "2025" (toLowerCase movie.director) →
      IsSubstring "2025" (yearToString movie.year)) := by
  have hiff : movie ∈ search movies "2025" ↔
      movie ∈ movies ∧
        (IsSubstring "2025" (toLowerCase movie.title) ∨
         IsSubstring "2025" (toLowerCase movie.description) ∨
         (∃ g ∈ movie.genre, IsSubstring "2025" (toLowerCase g)) ∨
         (∃ actor ∈ movie.cast, IsSubstring "2025" (toLowerCase actor)) ∨
         IsSubstring "2025" (toLowerCase movie.director) ∨
         IsSubstring "2025" (yearToString movie.year)) := by
    rw [search_eq_scan movies "2025" (by decide), mem_scan]
    have hlow : toLowerCase "2025" = "2025" := by decide
    unfold SpecMatches yearToString
    rw [hlow]
  refine ⟨hiff, ?_⟩
  intro hin h1 h2 h3 h4 h5
  rcases (hiff.mp hin).2 with h | h | ⟨g, hg, h⟩ | ⟨a, ha, h⟩ | h | h
  · exact absurd h h1
  · exact absurd h h2
  · exact absurd h (h3 g hg)
  · exact absurd h (h4 a ha)
  · exact absurd h h5
  · exact h

/-- C9: an item of the list whose year is 2019 or 1997 is in the completed
search for "19"; in general the filter keeps an item for every query that is a
substring of the decimal string of its year, and so does the completed search
for every such query that is not blank. -/
theorem search_year_substring (movies : List Movie) (movie : Movie)
    (hmem : movie ∈ movies) :
    (movie.year = 2019 ∨ movie.year = 1997 → movie ∈ search movies "19") ∧
    (∀ query : String, IsSubstring query (yearToString movie.year) →
      matchesQuery query movie = true ∧ movie ∈ scan movies query ∧
        (trim query ≠ "" → movie ∈ search movies query)) := by
  have general : ∀ query : String, IsSubstring query (yearToString movie.year) →
      matchesQuery query movie = true ∧ movie ∈ scan movies query ∧
        (trim query ≠ "" → movie ∈ search movies query) := by
    intro query hsub
    have hspec : SpecMatches query movie := by
      unfold SpecMatches
      rw [toLowerCase_of_substring_year query movie.year hsub]
      exact Or.inr (Or.inr (Or.inr (Or.inr (Or.inr hsub))))
    refine ⟨(matchesQuery_iff query movie).mpr hspec, mem_scan.mpr ⟨hmem, hspec⟩, ?_⟩
    intro hq
    rw [search_eq_scan movies query hq]
    exact mem_scan.mpr ⟨hmem, hspec⟩
  refine ⟨?_, general⟩
  rintro (hy | hy)
  · exact (general "19" (by rw [hy]; decide)).2.2 (by decide)
  · exact (general "19" (by rw [hy]; decide)).2.2 (by decide)

/-- The item of 2019 in a list with the scenario items. -/
theorem search_year_substring_witness :
    movieOf2019 ∈ movieOf2019 :: sampleMovies ∧
    ((movieOf2019.year = 2019 ∨ movieOf2019.year = 1997 →
      movieOf2019 ∈ search (movieOf2019 :: sampleMovies) "19") ∧
    (∀ query : String, IsSubstring query (yearToString movieOf2019.year) →
      matchesQuery query movieOf2019 = true ∧
        movieOf2019 ∈ scan (movieOf2019 :: sampleMovies) query ∧
        (trim query ≠ "" →
          movieOf2019 ∈ search (movieOf2019 :: sampleMovies) query))) :=
  ⟨by decide, search_year_substring (movieOf2019 :: sampleMovies) movieOf2019 (by decide)⟩

/-! ## Query engine: blank queries and the debounce -/

theorem step_handleSearch (s : SearchState) (query : String) :
    step s (Event.handleSearch query) =
      if query = s.searchQuery then s
      else searchEffect { s with searchQuery := query } := by
  rfl

/-- A change of the query to a non-blank value, from a consistent state:
whatever was pending is cleared and one new timer is scheduled for the new
query; the results are not touched. -/
theorem step_handleSearch_changed (s : SearchState) (query : String)
    (hs : Consistent s) (hb : isBlank query = false) (hne : s.searchQuery ≠ query) :
    step s (Event.handleSearch query) =
      { s with searchQuery := query, isSearching := true,
               timeouts := [⟨s.nextTimeoutId, query, s.movies⟩],
               nextTimeoutId := s.nextTimeoutId + 1,
               cleanup := some s.nextTimeoutId } := by
  rw [step_handleSearch, if_neg (Ne.symm hne)]
  rw [searchEffect_nonblank { s with searchQuery := query }
    (runCleanup_eq_nil hs : runCleanup s = []) hb]

theorem burst_cons (s : SearchState) (query : String) (queries : List String) :
    burst s (query :: queries) = burst (step s (Event.handleSearch query)) queries := by
  rfl

/-- The state after a burst of changes to non-blank queries. -/
theorem burst_fields (queries : List String) :
    ∀ s : SearchState, Consistent s → (∀ q ∈ queries, isBlank q = false) →
      List.Chain (fun a b => a ≠ b) s.searchQuery queries →
      (burst s queries).movies = s.movies ∧
      (burst s queries).writes = s.writes ∧
      (burst s queries).searchResults = s.searchResults ∧
      (burst s queries).nextTimeoutId = s.nextTimeoutId + queries.length ∧
      (burst s queries).searchQuery = queries.getLastD s.searchQuery ∧
      (queries ≠ [] →
        (burst s queries).timeouts =
          [⟨s.nextTimeoutId + queries.length - 1, queries.getLastD s.searchQuery,
            s.movies⟩]) := by
  induction queries with
  | nil => intro s _ _ _; simp [burst]
  | cons query rest ih =>
    intro s hs hnb hch
    rw [List.chain_cons] at hch
    have hb : isBlank query = false := hnb query (by simp)
    have hstep := step_handleSearch_changed s query hs hb hch.1
    have hcons : Consistent (step s (Event.handleSearch query)) :=
      step_consistent s _ hs
    have hq : (step s (Event.handleSearch query)).searchQuery = query := by
      rw [hstep]
    obtain ⟨h1, h2, h3, h4, h5, h6⟩ := ih (step s (Event.handleSearch query)) hcons
      (fun q hqm => hnb q (List.mem_cons_of_mem _ hqm)) (by rw [hq]; exact hch.2)
    rw [burst_cons, List.getLastD_cons]
    rw [hq] at h5 h6
    have e1 : (step s (Event.handleSearch query)).movies = s.movies := by rw [hstep]
    have e2 : (step s (Event.handleSearch query)).writes = s.writes := by rw [hstep]
    have e3 : (step s (Event.handleSearch query)).searchResults = s.searchResults := by
      rw [hstep]
    have e4 : (step s (Event.handleSearch query)).nextTimeoutId = s.nextTimeoutId + 1 := by
      rw [hstep]
    have e5 : (step s (Event.handleSearch query)).timeouts =
        [⟨s.nextTimeoutId, query, s.movies⟩] := by rw [hstep]
    refine ⟨h1.trans e1, h2.trans e2, h3.trans e3, ?_, h5, fun _ => ?_⟩
    · rw [h4, e4, List.length_cons]; omega
    · cases rest with
      | nil =>
        simp only [burst, List.foldl_nil, List.getLastD_nil, List.length_cons,
          List.length_nil]
        rw [e5]; simp
      | cons q2 rest2 =>
        rw [h6 (by simp), e4, e1]
        have : s.nextTimeoutId + 1 + (q2 :: rest2).length - 1 =
            s.nextTimeoutId + (query :: q2 :: rest2).length - 1 := by
          simp only [List.length_cons]; omega
        rw [this]

/-- C6: when the query is set to a string made of white space only (the empty
string included), in any reachable state, the results are empty and the flag
is off right after the step, no timer is pending and no timer was scheduled by
the step; such a string is exactly one whose trimmed form is empty. -/
theorem blank_query_resets (s : SearchState) (query : String) (hs : Reachable s)
    (hq : ∀ c ∈ query.data, isWhiteSpace c = true) :
    trim query = "" ∧
    (step s (Event.handleSearch query)).searchResults = [] ∧
    (step s (Event.handleSearch query)).isSearching = false ∧
    (step s (Event.handleSearch query)).timeouts = [] ∧
    (step s (Event.handleSearch query)).nextTimeoutId = s.nextTimeoutId := by
  have hb : isBlank query = true := isBlank_of_all_whiteSpace query hq
  have htrim : trim query = "" := by
    unfold isBlank at hb
    have hd : (trim query).data = [] := by simpa using hb
    have : trim query = ⟨(trim query).data⟩ := rfl
    rw [this, hd]
  have hc := reachable_consistent hs
  refine ⟨htrim, ?_⟩
  rw [step_handleSearch]
  by_cases he : query = s.searchQuery
  · rw [if_pos he]
    rw [he] at hb
    rcases hc with ⟨ht, hf, hr⟩ | ⟨tid, _, _, _, hnb⟩
    · refine ⟨?_, hf, ht, rfl⟩
      rw [hr]; simp [hb]
    · rw [hb] at hnb; exact absurd hnb (by decide)
  · rw [if_neg he]
    rw [searchEffect_blank { s with searchQuery := query }
      (runCleanup_eq_nil hc : runCleanup s = []) hb]
    exact ⟨rfl, rfl, rfl, rfl⟩

/-- A blank query typed while the scan for "b" is pending. -/
theorem blank_query_resets_witness :
    Reachable (step mounted (Event.handleSearch "b")) ∧
    (∀ c ∈ ("   " : String).data, isWhiteSpace c = true) ∧
    (trim "   " = "" ∧
    (step (step mounted (Event.handleSearch "b"))
      (Event.handleSearch "   ")).searchResults = [] ∧
    (step (step mounted (Event.handleSearch "b"))
      (Event.handleSearch "   ")).isSearching = false ∧
    (step (step mounted (Event.handleSearch "b"))
      (Event.handleSearch "   ")).timeouts = [] ∧
    (step (step mounted (Event.handleSearch "b"))
      (Event.handleSearch "   ")).nextTimeoutId =
        (step mounted (Event.handleSearch "b")).nextTimeoutId) :=
  ⟨Reachable.step _ _ Reachable.mounted, by decide,
    blank_query_resets (step mounted (Event.handleSearch "b")) "   "
      (Reachable.step _ _ Reachable.mounted) (by decide)⟩

/-- C10: from any reachable state, a burst of changes to non-blank queries
`earlier ++ [final]` (each differing from the value before it) with no timer
firing in between schedules one timer per change and leaves exactly one
pending, the one for `final`; no prefix of the burst writes the results.  When
the quiet period then elapses, exactly one write is added to the history, the
scan for `final`; the results are that scan over the item list, the flag is
off and no timer is left. -/
theorem debounce_collapse (s : SearchState) (earlier : List String) (final : String)
    (hs : Reachable s)
    (hnonblank : ∀ q ∈ earlier ++ [final], isBlank q = false)
    (hchange : List.Chain (fun a b => a ≠ b) s.searchQuery (earlier ++ [final])) :
    (burst s (earlier ++ [final])).timeouts =
        [⟨s.nextTimeoutId + earlier.length, final, s.movies⟩] ∧
    (burst s (earlier ++ [final])).nextTimeoutId =
        s.nextTimeoutId + (earlier.length + 1) ∧
    (∀ queries : List String, queries <+: earlier ++ [final] →
      (burst s queries).writes = s.writes ∧
      (burst s queries).searchResults = s.searchResults ∧
      (∀ t ∈ (burst s queries).timeouts,
        t.searchQuery = queries.getLastD s.searchQuery)) ∧
    (elapse (burst s (earlier ++ [final]))).writes =
        s.writes ++ [ResultWrite.scanned final] ∧
    (elapse (burst s (earlier ++ [final]))).searchResults = scan s.movies final ∧
    (elapse (burst s (earlier ++ [final]))).isSearching = false ∧
    (elapse (burst s (earlier ++ [final]))).timeouts = [] := by
  have hc := reachable_consistent hs
  obtain ⟨_, h2, _, h4, _, h6⟩ := burst_fields (earlier ++ [final]) s hc hnonblank hchange
  have ht := h6 (by simp)
  rw [List.getLastD_concat] at ht
  have hlen : s.nextTimeoutId + (earlier ++ [final]).length - 1 =
      s.nextTimeoutId + earlier.length := by
    simp only [List.length_append, List.length_singleton]; omega
  rw [hlen] at ht
  have hel := elapse_single _ _ ht
  refine ⟨ht, ?_, ?_, ?_, ?_, ?_, ?_⟩
  · rw [h4]; simp
  · intro queries hpre
    have hch : List.Chain (fun a b => a ≠ b) s.searchQuery queries := by
      have h' : List.Chain' (fun a b => a ≠ b) (s.searchQuery :: (earlier ++ [final])) :=
        hchange
      exact h'.prefix ((List.prefix_cons_inj s.searchQuery).mpr hpre)
    obtain ⟨_, p2, p3, _, _, p6⟩ := burst_fields queries s hc
      (fun q hq => hnonblank q (hpre.subset hq)) hch
    refine ⟨p2, p3, ?_⟩
    intro t htm
    cases queries with
    | nil =>
      simp only [burst, List.foldl_nil, List.getLastD_nil] at htm ⊢
      rcases hc with ⟨hnil, _, _⟩ | ⟨tid, hone, _, _, _⟩
      · rw [hnil] at htm; simp at htm
      · rw [hone] at htm
        simp only [List.mem_singleton] at htm
        rw [htm]
    | cons q rest =>
      rw [p6 (by simp)] at htm
      simp only [List.mem_singleton] at htm
      rw [htm]
  · rw [hel]; simp [h2]
  · rw [hel]
  · rw [hel]
  · rw [hel]

/-- The burst "b", "ba", "bat" typed into the mounted component. -/
theorem debounce_collapse_witness :
    Reachable mounted ∧
    (∀ q ∈ ["b", "ba"] ++ ["bat"], isBlank q = false) ∧
    List.Chain (fun a b => a ≠ b) mounted.searchQuery (["b", "ba"] ++ ["bat"]) ∧
    ((burst mounted (["b", "ba"] ++ ["bat"])).timeouts =
        [⟨mounted.nextTimeoutId + ["b", "ba"].length, "bat", mounted.movies⟩] ∧
    (burst mounted (["b", "ba"] ++ ["bat"])).nextTimeoutId =
        mounted.nextTimeoutId + (["b", "ba"].length + 1) ∧
    (∀ queries : List String, queries <+: ["b", "ba"] ++ ["bat"] →
      (burst mounted queries).writes = mounted.writes ∧
      (burst mounted queries).searchResults = mounted.searchResults ∧
      (∀ t ∈ (burst mounted queries).timeouts,
        t.searchQuery = queries.getLastD mounted.searchQuery)) ∧
    (elapse (burst mounted (["b", "ba"] ++ ["bat"]))).writes =
        mounted.writes ++ [ResultWrite.scanned "bat"] ∧
    (elapse (burst mounted (["b", "ba"] ++ ["bat"]))).searchResults =
        scan mounted.movies "bat" ∧
    (elapse (burst mounted (["b", "ba"] ++ ["bat"]))).isSearching = false ∧
    (elapse (burst mounted (["b", "ba"] ++ ["bat"]))).timeouts = []) :=
  ⟨Reachable.mounted, by decide,
    List.Chain.cons (by decide)
      (List.Chain.cons (by decide) (List.Chain.cons (by decide) List.Chain.nil)),
    debounce_collapse mounted ["b", "ba"] "bat" Reachable.mounted (by decide)
      (List.Chain.cons (by decide)
        (List.Chain.cons (by decide) (List.Chain.cons (by decide) List.Chain.nil)))⟩

/-! ## Query engine: the flag and the stored results -/

/-- C11: in every reachable state the flag `isSearching` is on exactly when a
scheduled scan is pending; a pending scan is the only one, it is the scan of
the current query over the current item list, and when it runs the flag goes
off and nothing is pending; a change to another non-blank query turns the flag
on and leaves the scan of that query pending. -/
theorem isSearching_iff_pending (s : SearchState) (hs : Reachable s) :
    (s.isSearching = true ↔ s.timeouts ≠ []) ∧
    (∀ t ∈ s.timeouts,
      s.timeouts = [t] ∧ t.searchQuery = s.searchQuery ∧ t.movies = s.movies ∧
      (step s (Event.timeoutFires t.id)).isSearching = false ∧
      (step s (Event.timeoutFires t.id)).timeouts = []) ∧
    (∀ query : String, isBlank query = false → query ≠ s.searchQuery →
      (step s (Event.handleSearch query)).isSearching = true ∧
      (step s (Event.handleSearch query)).timeouts =
        [⟨s.nextTimeoutId, query, s.movies⟩]) := by
  have hc := reachable_consistent hs
  refine ⟨?_, ?_, ?_⟩
  · rcases hc with ⟨ht, hf, _⟩ | ⟨tid, ht, _, hf, _⟩
    · rw [ht, hf]; simp
    · rw [ht, hf]; simp
  · intro t htm
    rcases hc with ⟨ht, _, _⟩ | ⟨tid, ht, _, _, _⟩
    · rw [ht] at htm; simp at htm
    · have ht' := ht
      rw [ht] at htm
      simp only [List.mem_singleton] at htm
      subst htm
      have hstep := step_timeoutFires_single s ⟨tid, s.searchQuery, s.movies⟩ ht'
      simp only at hstep
      refine ⟨ht', rfl, rfl, ?_, ?_⟩
      · rw [hstep]
      · rw [hstep]
  · intro query hb hne
    rw [step_handleSearch_changed s query hc hb (Ne.symm hne)]
    exact ⟨rfl, rfl⟩

/-- The state with the scan of "b" pending. -/
theorem isSearching_iff_pending_witness :
    Reachable (step mounted (Event.handleSearch "b")) ∧
    (((step mounted (Event.handleSearch "b")).isSearching = true ↔
      (step mounted (Event.handleSearch "b")).timeouts ≠ []) ∧
    (∀ t ∈ (step mounted (Event.handleSearch "b")).timeouts,
      (step mounted (Event.handleSearch "b")).timeouts = [t] ∧
      t.searchQuery = (step mounted (Event.handleSearch "b")).searchQuery ∧
      t.movies = (step mounted (Event.handleSearch "b")).movies ∧
      (step (step mounted (Event.handleSearch "b"))
        (Event.timeoutFires t.id)).isSearching = false ∧
      (step (step mounted (Event.handleSearch "b"))
        (Event.timeoutFires t.id)).timeouts = []) ∧
    (∀ query : String, isBlank query = false →
      query ≠ (step mounted (Event.handleSearch "b")).searchQuery →
      (step (step mounted (Event.handleSearch "b"))
        (Event.handleSearch query)).isSearching = true ∧
      (step (step mounted (Event.handleSearch "b"))
        (Event.handleSearch query)).timeouts =
        [⟨(step mounted (Event.handleSearch "b")).nextTimeoutId, query,
          (step mounted (Event.handleSearch "b")).movies⟩])) :=
  ⟨Reachable.step _ _ Reachable.mounted,
    isSearching_iff_pending (step mounted (Event.handleSearch "b"))
      (Reachable.step _ _ Reachable.mounted)⟩

theorem covered_of_consistent {s : SearchState} (h : Consistent s) : Covered s := by
  intro t ht
  rcases h with ⟨hnil, _, _⟩ | ⟨tid, hone, hc, _, _⟩
  · rw [hnil] at ht; simp at ht
  · rw [hone] at ht
    simp only [List.mem_singleton] at ht
    rw [hc, ht]

theorem runCleanup_eq_nil_of_covered {s : SearchState} (h : Covered s) :
    runCleanup s = [] := by
  unfold runCleanup
  cases hc : s.cleanup with
  | none =>
    simp only
    cases ht : s.timeouts with
    | nil => rfl
    | cons t rest =>
      have := h t (by rw [ht]; simp)
      rw [hc] at this
      cases this
  | some timeoutId =>
    simp only
    unfold clearTimeout
    rw [List.filter_eq_nil_iff]
    intro t ht
    have := h t ht
    rw [hc] at this
    have hid : t.id = timeoutId := (Option.some.inj this).symm
    simp [hid]

theorem step_timeoutFires (s : SearchState) (timeoutId : Nat) :
    step s (Event.timeoutFires timeoutId) =
      match s.timeouts.find? (fun t => t.id == timeoutId) with
      | some t =>
        timeoutCallback { s with timeouts := clearTimeout s.timeouts timeoutId } t
      | none => s := by
  rfl

theorem covered_step_timeoutFires (s : SearchState) (timeoutId : Nat) (h : Covered s) :
    Covered (step s (Event.timeoutFires timeoutId)) := by
  rw [step_timeoutFires]
  cases s.timeouts.find? (fun t => t.id == timeoutId) with
  | none => exact h
  | some t =>
    intro u hu
    have hu' : u ∈ s.timeouts := by
      have hu2 : u ∈ clearTimeout s.timeouts timeoutId := hu
      unfold clearTimeout at hu2
      exact (List.mem_filter.mp hu2).1
    exact h u hu'

theorem commitStep_setSearchQuery (c : Commit) (query : String) :
    commitStep c (CommitEvent.setSearchQuery query) =
      if query = c.state.searchQuery then c
      else { state := { (flushEffect c).state with searchQuery := query },
             effectPending := true } := by
  rfl

theorem commitStep_setMovies (c : Commit) (movies : List Movie) :
    commitStep c (CommitEvent.setMovies movies) =
      { state := { (flushEffect c).state with movies := movies },
        effectPending := true } := by
  rfl

theorem commitStep_timeoutFires (c : Commit) (timeoutId : Nat) :
    commitStep c (CommitEvent.timeoutFires timeoutId) =
      { c with state := step c.state (Event.timeoutFires timeoutId) } := by
  rfl

/-- At every reachable commit the pending timers are covered by the cleanup
function, and once the effect has run the state is consistent. -/
theorem commitReachable_inv {c : Commit} (h : CommitReachable c) :
    Covered c.state ∧ (c.effectPending = false → Consistent c.state) := by
  induction h with
  | first =>
    refine ⟨?_, ?_⟩
    · intro t ht; simp [firstCommit, initialState] at ht
    · intro hp; simp [firstCommit] at hp
  | step c e _ ih =>
    obtain ⟨hcov, hcons⟩ := ih
    have hflush : Covered (flushEffect c).state ∧
        ((flushEffect c).effectPending = false → Consistent (flushEffect c).state) := by
      unfold flushEffect
      cases hp : c.effectPending with
      | true =>
        have hk : Consistent (searchEffect c.state) :=
          searchEffect_consistent _ (runCleanup_eq_nil_of_covered hcov)
        simpa using ⟨covered_of_consistent hk, hk⟩
      | false =>
        simpa [hp] using ⟨hcov, hcons hp⟩
    cases e with
    | setSearchQuery query =>
      rw [commitStep_setSearchQuery]
      by_cases hq : query = c.state.searchQuery
      · rw [if_pos hq]; exact ⟨hcov, hcons⟩
      · rw [if_neg hq]
        refine ⟨?_, ?_⟩
        · intro t ht; exact hflush.1 t ht
        · intro hp; cases hp
    | setMovies movies =>
      rw [commitStep_setMovies]
      refine ⟨?_, ?_⟩
      · intro t ht; exact hflush.1 t ht
      · intro hp; cases hp
    | effectRuns => exact hflush
    | timeoutFires timeoutId =>
      rw [commitStep_timeoutFires]
      refine ⟨covered_step_timeoutFires _ _ hcov, ?_⟩
      intro hp
      exact step_consistent _ _ (hcons hp)

theorem commitReachable_run (c : Commit) (events : List CommitEvent)
    (h : CommitReachable c) : CommitReachable (commitRun c events) := by
  induction events generalizing c with
  | nil => exact h
  | cons e rest ih => exact ih (commitStep c e) (CommitReachable.step c e h)

/-- C16, as stated, fails: after the scan of "guard" over the scenario items
has run and the query has been changed to "matrix", the commit of the new
query is reachable; in it the flag `isSearching` is off and the stored results
are the two items found for "guard", while the search filter for the current
query "matrix" keeps no item. -/
theorem stale_results_with_flag_off :
    CommitReachable (commitRun firstCommit staleEvents) ∧
    (commitRun firstCommit staleEvents).state.isSearching = false ∧
    (commitRun firstCommit staleEvents).state.searchQuery = "matrix" ∧
    (commitRun firstCommit staleEvents).state.movies = sampleMovies ∧
    (commitRun firstCommit staleEvents).state.searchResults = sampleMovies ∧
    search sampleMovies "matrix" = [] ∧
    (commitRun firstCommit staleEvents).state.searchResults ≠
      search (commitRun firstCommit staleEvents).state.movies
        (commitRun firstCommit staleEvents).state.searchQuery := by
  refine ⟨commitReachable_run _ _ CommitReachable.first, by decide, by decide,
    by decide, by decide, by decide, by decide⟩

/-- C16, amended: at every reachable commit for which the search effect has
run (no effect run is outstanding), when the flag `isSearching` is off the
stored results are the search filter applied to the current item list and the
current query, and the empty sequence when the current query is blank. -/
theorem results_current_after_effect (c : Commit) (hc : CommitReachable c)
    (hsettled : c.effectPending = false) (hidle : c.state.isSearching = false) :
    (isBlank c.state.searchQuery = true → c.state.searchResults = []) ∧
    (isBlank c.state.searchQuery = false →
      c.state.searchResults =
        c.state.movies.filter
          (fun movie => decide (SpecMatches c.state.searchQuery movie))) ∧
    c.state.searchResults = search c.state.movies c.state.searchQuery := by
  have hres : c.state.searchResults =
      (if isBlank c.state.searchQuery then []
        else scan c.state.movies c.state.searchQuery) := by
    rcases (commitReachable_inv hc).2 hsettled with ⟨_, _, hr⟩ | ⟨_, _, _, hf, _⟩
    · exact hr
    · rw [hidle] at hf; exact absurd hf (by decide)
  refine ⟨?_, ?_, ?_⟩
  · intro hb; rw [hres]; simp [hb]
  · intro hb; rw [hres, ← scan_eq_filter_spec]; simp [hb]
  · rw [hres, search_eq]

/-- The scenario items after the query "guard" has been typed and its scan has
run. -/
theorem results_current_after_effect_witness :
    CommitReachable (commitRun firstCommit settledEvents) ∧
    (commitRun firstCommit settledEvents).effectPending = false ∧
    (commitRun firstCommit settledEvents).state.isSearching = false ∧
    ((isBlank (commitRun firstCommit settledEvents).state.searchQuery = true →
      (commitRun firstCommit settledEvents).state.searchResults = []) ∧
    (isBlank (commitRun firstCommit settledEvents).state.searchQuery = false →
      (commitRun firstCommit settledEvents).state.searchResults =
        (commitRun firstCommit settledEvents).state.movies.filter
          (fun movie => decide
            (SpecMatches (commitRun firstCommit settledEvents).state.searchQuery movie))) ∧
    (commitRun firstCommit settledEvents).state.searchResults =
      search (commitRun firstCommit settledEvents).state.movies
        (commitRun firstCommit settledEvents).state.searchQuery) :=
  ⟨commitReachable_run _ _ CommitReachable.first, by decide, by decide,
    results_current_after_effect (commitRun firstCommit settledEvents)
      (commitReachable_run _ _ CommitReachable.first) (by decide) (by decide)⟩

theorem filter_sublist_filter {α : Type} (p q : α → Bool) (l : List α)
    (h : ∀ x, p x = true → q x = true) : List.Sublist (l.filter p) (l.filter q) := by
  induction l with
  | nil => simp
  | cons a l ih =>
    cases hp : p a with
    | true =>
      rw [List.filter_cons_of_pos hp, List.filter_cons_of_pos (h a hp)]
      exact List.Sublist.cons₂ a ih
    | false =>
      rw [List.filter_cons_of_neg (by simp [hp])]
      cases hq : q a with
      | true =>
        rw [List.filter_cons_of_pos hq]
        exact List.Sublist.cons a ih
      | false =>
        rw [List.filter_cons_of_neg (by simp [hq])]
        exact ih

/-- A match of a query is a match of every query whose lowercased form lies
inside the lowercased form of the first. -/
theorem SpecMatches_of_substring (q1 q2 : String) (movie : Movie)
    (hsub : IsSubstring (toLowerCase q1) (toLowerCase q2))
    (h : SpecMatches q2 movie) : SpecMatches q1 movie := by
  unfold SpecMatches IsSubstring at *
  rcases h with h | h | ⟨g, hg, h⟩ | ⟨a, ha, h⟩ | h | h
  · exact Or.inl (hsub.trans h)
  · exact Or.inr (Or.inl (hsub.trans h))
  · exact Or.inr (Or.inr (Or.inl ⟨g, hg, hsub.trans h⟩))
  · exact Or.inr (Or.inr (Or.inr (Or.inl ⟨a, ha, hsub.trans h⟩)))
  · exact Or.inr (Or.inr (Or.inr (Or.inr (Or.inl (hsub.trans h)))))
  · exact Or.inr (Or.inr (Or.inr (Or.inr (Or.inr (hsub.trans h)))))

/-- C17: when `q1` is not blank and its lowercased form is a substring of the
lowercased form of `q2`, every item of the completed search for `q2` is an
item of the completed search for `q1`, and the result for `q2` is a
subsequence of the result for `q1`. -/
theorem refine_query_shrinks (movies : List Movie) (q1 q2 : String)
    (h1 : trim q1 ≠ "")
    (hsub : IsSubstring (toLowerCase q1) (toLowerCase q2)) :
    (∀ movie ∈ search movies q2, movie ∈ search movies q1) ∧
      List.Sublist (search movies q2) (search movies q1) := by
  have hsl : List.Sublist (search movies q2) (search movies q1) := by
    rw [search_eq_scan movies q1 h1, search_eq movies q2]
    cases hb : isBlank q2 with
    | true => simp
    | false =>
      simp only [Bool.false_eq_true, if_false]
      unfold scan
      apply filter_sublist_filter
      intro movie hm
      exact (matchesQuery_iff q1 movie).mpr
        (SpecMatches_of_substring q1 q2 movie hsub ((matchesQuery_iff q2 movie).mp hm))
  exact ⟨fun movie hm => hsl.subset hm, hsl⟩

/-- Refining "guard" to "old guard" over the scenario items. -/
theorem refine_query_shrinks_witness :
    trim "guard" ≠ "" ∧
    IsSubstring (toLowerCase "guard") (toLowerCase "old guard") ∧
    ((∀ movie ∈ search sampleMovies "old guard", movie ∈ search sampleMovies "guard") ∧
      List.Sublist (search sampleMovies "old guard") (search sampleMovies "guard")) :=
  ⟨by decide, by decide,
    refine_query_shrinks sampleMovies "guard" "old guard" (by decide) (by decide)⟩

/-! ## The scan over items with absent fields -/

/-- On an item with all its fields the test of the raw scan returns, and
returns the value of the filter predicate. -/
theorem rawMatchesQuery_toRaw (searchQuery : String) (movie : Movie) :
    rawMatchesQuery searchQuery movie.toRaw = Except.ok (matchesQuery searchQuery movie) := by
  unfold rawMatchesQuery matchesQuery Movie.toRaw readField
  simp only [bind, Except.bind, pure, Except.pure]
  cases includes (toLowerCase movie.title) (toLowerCase searchQuery) <;>
  cases includes (toLowerCase movie.description) (toLowerCase searchQuery) <;>
  cases movie.genre.any (fun g => includes (toLowerCase g) (toLowerCase searchQuery)) <;>
  cases movie.cast.any (fun actor => includes (toLowerCase actor) (toLowerCase searchQuery)) <;>
  cases includes (toLowerCase movie.director) (toLowerCase searchQuery) <;>
  simp

theorem rawScan_toRaw (movies : List Movie) (searchQuery : String) :
    rawScan (movies.map Movie.toRaw) searchQuery =
      Except.ok ((scan movies searchQuery).map Movie.toRaw) := by
  induction movies with
  | nil => simp [rawScan, scan]
  | cons movie rest ih =>
    simp only [List.map_cons, rawScan, rawMatchesQuery_toRaw, ih]
    unfold scan
    cases hm : matchesQuery searchQuery movie with
    | true => simp [List.filter_cons_of_pos hm]
    | false => simp [List.filter_cons_of_neg, hm]

theorem rawMatchesQuery_no_title (searchQuery : String) (movie : RawMovie)
    (h : movie.title = none) :
    rawMatchesQuery searchQuery movie = Except.error JSError.typeError := by
  unfold rawMatchesQuery readField
  simp [h, bind, Except.bind]

/-- C14, as stated, fails: the scan of a list holding an item without a title
throws for the non-blank query "heist", although the description of the item
holds the query. -/
theorem rawScan_untitled_throws :
    isBlank "heist" = false ∧
      rawScan [untitledMovie] "heist" = Except.error JSError.typeError := by
  refine ⟨by decide, ?_⟩
  simp [rawScan, rawMatchesQuery_no_title "heist" untitledMovie rfl]

theorem rawScan_throws_of_no_title (searchQuery : String) (raws : List RawMovie)
    (h : ∃ movie ∈ raws, movie.title = none) :
    rawScan raws searchQuery = Except.error JSError.typeError := by
  induction raws with
  | nil => simp at h
  | cons movie rest ih =>
    unfold rawScan
    cases hm : rawMatchesQuery searchQuery movie with
    | error e => cases e; rfl
    | ok keep =>
      have hrest : ∃ m ∈ rest, m.title = none := by
        obtain ⟨m, hmem, ht⟩ := h
        rcases List.mem_cons.mp hmem with rfl | hmem
        · rw [rawMatchesQuery_no_title searchQuery m ht] at hm
          cases hm
        · exact ⟨m, hmem, ht⟩
      simp only [ih hrest]

/-- C14, amended: on an item list whose items have all six fields the scan
returns for every query, and returns the items kept by the filter predicate;
on a list that holds an item without a title it throws. -/
theorem rawScan_total_on_complete (movies : List Movie) (searchQuery : String) :
    rawScan (movies.map Movie.toRaw) searchQuery =
        Except.ok ((scan movies searchQuery).map Movie.toRaw) ∧
    (∀ raws : List RawMovie, (∃ movie ∈ raws, movie.title = none) →
      rawScan raws searchQuery = Except.error JSError.typeError) :=
  ⟨rawScan_toRaw movies searchQuery,
    fun raws h => rawScan_throws_of_no_title searchQuery raws h⟩

/-! ## Featured movie -/

/-- C15: when the `featured` category exists with first id `first`, the
featured movie is the first item of the list with that id, and there is none
when no item has that id; when the category is missing or empty, it is the
first item of the list, and there is none when the list is empty.  The lookup
of `featured` never reaches `Object.prototype`. -/
theorem featuredMovie_spec (movies : List Movie) (categories : CategoryIndex) :
    (∀ (first : Nat) (rest : List Nat),
      categories.lookup "featured" = some (first :: rest) →
      (∀ m : Movie, featuredMovie movies categories = some m ↔
        m.id = first ∧ ∃ earlier later : List Movie,
          movies = earlier ++ m :: later ∧ ∀ x ∈ earlier, x.id ≠ first) ∧
      (featuredMovie movies categories = none ↔ ∀ x ∈ movies, x.id ≠ first)) ∧
    (categories.lookup "featured" = none ∨ categories.lookup "featured" = some [] →
      featuredMovie movies categories = movies.head? ∧
      (movies = [] → featuredMovie movies categories = none)) ∧
    getProperty categories "featured" ≠ Property.inherited := by
  refine ⟨?_, ?_, ?_⟩
  · intro first rest hl
    have hf : featuredMovie movies categories =
        movies.find? (fun movie => movie.id == first) := by
      unfold featuredMovie; rw [hl]
    rw [hf]
    refine ⟨fun m => ?_, ?_⟩
    · rw [List.find?_eq_some]
      simp
    · rw [List.find?_eq_none]
      simp
  · intro h
    have hf : featuredMovie movies categories = movies.head? := by
      unfold featuredMovie
      rcases h with h | h <;> rw [h]
    refine ⟨hf, fun he => ?_⟩
    rw [hf, he]; rfl
  · unfold getProperty
    cases categories.lookup "featured" with
    | some ids => simp
    | none =>
      have : "featured" ∉ objectPrototypeProperties := by decide
      simp [this]

/-- The scenario items with a `featured` category that starts with id 2. -/
theorem featuredMovie_spec_witness :
    featuredCategories.lookup "featured" = some (2 :: [1]) ∧
    ((∀ (first : Nat) (rest : List Nat),
      featuredCategories.lookup "featured" = some (first :: rest) →
      (∀ m : Movie, featuredMovie sampleMovies featuredCategories = some m ↔
        m.id = first ∧ ∃ earlier later : List Movie,
          sampleMovies = earlier ++ m :: later ∧ ∀ x ∈ earlier, x.id ≠ first) ∧
      (featuredMovie sampleMovies featuredCategories = none ↔
        ∀ x ∈ sampleMovies, x.id ≠ first)) ∧
    (featuredCategories.lookup "featured" = none ∨
        featuredCategories.lookup "featured" = some [] →
      featuredMovie sampleMovies featuredCategories = sampleMovies.head? ∧
      (sampleMovies = [] → featuredMovie sampleMovies featuredCategories = none)) ∧
    getProperty featuredCategories "featured" ≠ Property.inherited) :=
  ⟨by decide, featuredMovie_spec sampleMovies featuredCategories⟩

/-! ## Overlays -/

/-- C18: the state after the details of an item are opened, the item is played
from the modal and the player is closed is reachable, and in it `showModal` is
on while no movie is selected; the next `handlePlay` then shows the modal
again together with the player. -/
theorem stale_showModal_after_closePlayer :
    OverlayReachable (overlayRun initialOverlay playFromModal) ∧
    (overlayRun initialOverlay playFromModal).showModal = true ∧
    (overlayRun initialOverlay playFromModal).selectedMovie = none ∧
    modalVisible (overlayRun initialOverlay playFromModal) = false ∧
    modalVisible
      (overlayStep (overlayRun initialOverlay playFromModal)
        (OverlayEvent.handlePlay movieOf2019)) = true ∧
    playerVisible
      (overlayStep (overlayRun initialOverlay playFromModal)
        (OverlayEvent.handlePlay movieOf2019)) = true := by
  refine ⟨?_, rfl, rfl, rfl, rfl, rfl⟩
  exact OverlayReachable.step _ OverlayEvent.handleClosePlayer
    (OverlayReachable.step _ (OverlayEvent.handlePlay theBatman)
      (OverlayReachable.step _ (OverlayEvent.handleMoreInfo theBatman)
        OverlayReachable.initial))

/-! ## Pagination cursors -/

theorem lookup_map_replace (prev : PageMap) (key : String) (v : PageValue) (name : String) :
    (prev.map (fun p => if p.1 = key then (key, v) else p)).lookup name =
      if name = key then (prev.lookup key).map (fun _ => v) else prev.lookup name := by
  induction prev with
  | nil => simp
  | cons p rest ih =>
    obtain ⟨k, w⟩ := p
    by_cases hk : k = key
    · subst hk
      by_cases hn : name = k
      · subst hn; simp [List.lookup_cons]
      · have hb : (name == k) = false := by simpa using hn
        simp [List.lookup_cons, hb, hn, ih]
    · by_cases hn : name = k
      · subst hn
        simp [List.lookup_cons, hk]
      · have hb : (name == k) = false := by simpa using hn
        have hb2 : (key == k) = false := by simpa using Ne.symm hk
        simp [List.lookup_cons, hb, hb2, hk, ih]

theorem lookup_setOwn_self (prev : PageMap) (key : String) (v : PageValue) :
    (setOwn prev key v).lookup key = some v := by
  unfold setOwn
  cases hl : prev.lookup key with
  | some w =>
    simp only [Option.isSome_some, if_true]
    rw [lookup_map_replace]; simp [hl]
  | none =>
    simp only [Option.isSome_none, Bool.false_eq_true, if_false]
    rw [List.lookup_append, hl]; simp

theorem lookup_setOwn_other (prev : PageMap) (key : String) (v : PageValue)
    (name : String) (h : name ≠ key) :
    (setOwn prev key v).lookup name = prev.lookup name := by
  unfold setOwn
  cases hl : prev.lookup key with
  | some w =>
    simp only [Option.isSome_some, if_true]
    rw [lookup_map_replace]; simp [h]
  | none =>
    simp only [Option.isSome_none, Bool.false_eq_true, if_false]
    rw [List.lookup_append]
    have : (name == key) = false := by simpa using h
    cases prev.lookup name <;> simp [List.lookup_cons, this]

/-- The new cursor of a name whose cursor is a page number. -/
theorem loadMoreUpdater_of_number (prev : PageMap) (categoryName : String) (n : Nat)
    (hn : 1 ≤ n) (h : prev.lookup categoryName = some (PageValue.number n)) :
    (loadMoreUpdater categoryName prev).lookup categoryName =
      some (PageValue.number (n + 1)) := by
  unfold loadMoreUpdater
  rw [lookup_setOwn_self]
  have h0 : n ≠ 0 := by omega
  simp [getPage, h, orOne, plusOne, h0]

/-- The new cursor of a name without a cursor that is no member of
`Object.prototype`. -/
theorem loadMoreUpdater_of_undefined (prev : PageMap) (categoryName : String)
    (h : prev.lookup categoryName = none)
    (hproto : categoryName ∉ objectPrototypeProperties) :
    (loadMoreUpdater categoryName prev).lookup categoryName =
      some (PageValue.number 2) := by
  unfold loadMoreUpdater
  rw [lookup_setOwn_self]
  simp [getPage, h, hproto, orOne, plusOne]

/-- The cursors of the other names are kept. -/
theorem loadMoreUpdater_other (prev : PageMap) (categoryName name : String)
    (h : name ≠ categoryName) :
    (loadMoreUpdater categoryName prev).lookup name = prev.lookup name := by
  unfold loadMoreUpdater
  exact lookup_setOwn_other prev categoryName _ name h

/-- Nothing but the cursor object is changed by `loadMoreMovies`. -/
theorem loadMoreMovies_frame (s : AppState) (categoryName : String) :
    (loadMoreMovies s categoryName).search = s.search ∧
    (loadMoreMovies s categoryName).categories = s.categories ∧
    (loadMoreMovies s categoryName).overlay = s.overlay ∧
    (loadMoreMovies s categoryName).isLoading = s.isLoading :=
  ⟨rfl, rfl, rfl, rfl⟩

/-- C12: for a category name whose cursor, if it has one, is a page number
(and which, if it has none, is no member of `Object.prototype`, names that no
caller passes), `loadMoreMovies` sets the cursor of the name to its previous
value, or 1 if there is none, plus 1; it leaves the cursor of every other name
as it is, and leaves the search state with its item list, the category index,
the overlay state and the loading flag unchanged. -/
theorem loadMoreMovies_sets_cursor (s : AppState) (categoryName : String)
    (hvalid : ∀ v : PageValue, s.currentPage.lookup categoryName = some v →
      IsPageNumber v)
    (hname : (s.currentPage.lookup categoryName).isSome = true ∨
      categoryName ∉ objectPrototypeProperties) :
    (loadMoreMovies s categoryName).currentPage.lookup categoryName =
      some (PageValue.number
        ((match s.currentPage.lookup categoryName with
          | some (PageValue.number n) => n
          | _ => 1) + 1)) ∧
    (∀ name : String, name ≠ categoryName →
      (loadMoreMovies s categoryName).currentPage.lookup name =
        s.currentPage.lookup name) ∧
    (loadMoreMovies s categoryName).search = s.search ∧
    (loadMoreMovies s categoryName).search.movies = s.search.movies ∧
    (loadMoreMovies s categoryName).categories = s.categories ∧
    (loadMoreMovies s categoryName).overlay = s.overlay ∧
    (loadMoreMovies s categoryName).isLoading = s.isLoading := by
  refine ⟨?_, fun name hne => loadMoreUpdater_other s.currentPage categoryName name hne,
    rfl, rfl, rfl, rfl, rfl⟩
  show (loadMoreUpdater categoryName s.currentPage).lookup categoryName = _
  cases hl : s.currentPage.lookup categoryName with
  | none =>
    rw [hl] at hname
    have hproto : categoryName ∉ objectPrototypeProperties := by
      rcases hname with h | h
      · simp at h
      · exact h
    exact loadMoreUpdater_of_undefined s.currentPage categoryName hl hproto
  | some v =>
    obtain ⟨n, hv, hn⟩ := hvalid v hl
    subst hv
    exact loadMoreUpdater_of_number s.currentPage categoryName n hn hl

/-- One more page of `trending` in the loaded scenario: the cursor goes from 1
to 2. -/
theorem loadMoreMovies_sets_cursor_witness :
    (∀ v : PageValue,
      (loadData initialApp sampleMovies sampleCategories).currentPage.lookup
        "trending" = some v → IsPageNumber v) ∧
    (((loadData initialApp sampleMovies sampleCategories).currentPage.lookup
        "trending").isSome = true ∨ "trending" ∉ objectPrototypeProperties) ∧
    ((loadMoreMovies (loadData initialApp sampleMovies sampleCategories)
        "trending").currentPage.lookup "trending" =
      some (PageValue.number
        ((match (loadData initialApp sampleMovies sampleCategories).currentPage.lookup
            "trending" with
          | some (PageValue.number n) => n
          | _ => 1) + 1)) ∧
    (∀ name : String, name ≠ "trending" →
      (loadMoreMovies (loadData initialApp sampleMovies sampleCategories)
        "trending").currentPage.lookup name =
        (loadData initialApp sampleMovies sampleCategories).currentPage.lookup name) ∧
    (loadMoreMovies (loadData initialApp sampleMovies sampleCategories)
        "trending").search = (loadData initialApp sampleMovies sampleCategories).search ∧
    (loadMoreMovies (loadData initialApp sampleMovies sampleCategories)
        "trending").search.movies =
      (loadData initialApp sampleMovies sampleCategories).search.movies ∧
    (loadMoreMovies (loadData initialApp sampleMovies sampleCategories)
        "trending").categories =
      (loadData initialApp sampleMovies sampleCategories).categories ∧
    (loadMoreMovies (loadData initialApp sampleMovies sampleCategories)
        "trending").overlay = (loadData initialApp sampleMovies sampleCategories).overlay ∧
    (loadMoreMovies (loadData initialApp sampleMovies sampleCategories)
        "trending").isLoading =
      (loadData initialApp sampleMovies sampleCategories).isLoading) :=
  ⟨fun v hv => by
      have h1 : (loadData initialApp sampleMovies sampleCategories).currentPage.lookup
          "trending" = some (PageValue.number 1) := by decide
      rw [h1] at hv
      cases hv
      exact ⟨1, rfl, Nat.le_refl 1⟩,
    Or.inl (by decide),
    loadMoreMovies_sets_cursor (loadData initialApp sampleMovies sampleCategories)
      "trending"
      (fun v hv => by
        have h1 : (loadData initialApp sampleMovies sampleCategories).currentPage.lookup
            "trending" = some (PageValue.number 1) := by decide
        rw [h1] at hv
        cases hv
        exact ⟨1, rfl, Nat.le_refl 1⟩)
      (Or.inl (by decide))⟩

/-- Called directly with the name `constructor`, which has no cursor and which
no caller passes, `loadMoreMovies` does not set the cursor to `1 + 1`: the
lookup finds the member inherited from `Object.prototype`, which is truthy,
and `+ 1` turns it into a string.  The same happens on the empty cursor
object. -/
theorem loadMoreMovies_constructor_not_number :
    (loadData initialApp sampleMovies sampleCategories).currentPage.lookup
        "constructor" = none ∧
    (loadMoreMovies (loadData initialApp sampleMovies sampleCategories)
        "constructor").currentPage.lookup "constructor" = some PageValue.text ∧
    (loadMoreUpdater "constructor" []).lookup "constructor" = some PageValue.text ∧
    (loadMoreUpdater "constructor" []).lookup "constructor" ≠
      some (PageValue.number 2) := by
  have hempty : (loadMoreUpdater "constructor" []).lookup "constructor" =
      some PageValue.text := by decide
  refine ⟨by decide, by decide, hempty, ?_⟩
  rw [hempty]
  intro h
  cases h

theorem lookup_assignPage_one (acc : PageMap) (key name : String) (v : PageValue)
    (hall : ∀ (name : String) (v : PageValue), acc.lookup name = some v →
      v = PageValue.number 1)
    (h : (assignPage acc key (PageValue.number 1)).lookup name = some v) :
    v = PageValue.number 1 := by
  unfold assignPage at h
  by_cases hk : key = "__proto__"
  · rw [if_pos hk] at h; exact hall name v h
  · rw [if_neg hk] at h
    by_cases hn : name = key
    · subst hn
      rw [lookup_setOwn_self] at h
      exact (Option.some.inj h).symm
    · rw [lookup_setOwn_other _ _ _ _ hn] at h
      exact hall name v h

/-- Every cursor of the object built at load time is the number 1. -/
theorem foldl_assignPage_values (keys : List String) :
    ∀ acc : PageMap,
      (∀ (name : String) (v : PageValue), acc.lookup name = some v →
        v = PageValue.number 1) →
      ∀ (name : String) (v : PageValue),
        (keys.foldl (fun initialPages category =>
          assignPage initialPages category (PageValue.number 1)) acc).lookup name = some v →
        v = PageValue.number 1 := by
  induction keys with
  | nil => intro acc hall name v h; exact hall name v h
  | cons key rest ih =>
    intro acc hall name v h
    rw [List.foldl_cons] at h
    exact ih _ (fun name v h => lookup_assignPage_one acc key name v hall h) name v h

/-- Every key other than `__proto__` has the cursor 1 in the object built at
load time. -/
theorem foldl_assignPage_keys (keys : List String) :
    ∀ (acc : PageMap) (name : String), name ≠ "__proto__" →
      (name ∈ keys ∨ acc.lookup name = some (PageValue.number 1)) →
      (keys.foldl (fun initialPages category =>
        assignPage initialPages category (PageValue.number 1)) acc).lookup name =
          some (PageValue.number 1) := by
  induction keys with
  | nil =>
    intro acc name _ h
    rcases h with h | h
    · simp at h
    · exact h
  | cons key rest ih =>
    intro acc name hne h
    rw [List.foldl_cons]
    apply ih _ name hne
    by_cases hn : name = key
    · right
      subst hn
      unfold assignPage
      rw [if_neg hne, lookup_setOwn_self]
    · rcases h with h | h
      · rcases List.mem_cons.mp h with h | h
        · exact absurd h hn
        · exact Or.inl h
      · right
        unfold assignPage
        by_cases hk : key = "__proto__"
        · rw [if_pos hk]; exact h
        · rw [if_neg hk, lookup_setOwn_other _ _ _ _ hn]; exact h

theorem initialPages_inv (categories : CategoryIndex) :
    PagesInv categories (initialPages categories) := by
  have hvals := foldl_assignPage_values (categories.map Prod.fst) []
    (fun name v h => by simp at h)
  refine ⟨?_, ?_, ?_⟩
  · intro name n h
    have := hvals name _ h
    cases this; exact Nat.le_refl 1
  · intro name hmem hne
    exact ⟨1, foldl_assignPage_keys (categories.map Prod.fst) [] name hne (Or.inl hmem)⟩
  · intro name _ v h
    exact ⟨1, hvals name v h⟩

theorem loadMoreUpdater_inv (categories : CategoryIndex) (pages : PageMap)
    (categoryName : String) (h : PagesInv categories pages) :
    PagesInv categories (loadMoreUpdater categoryName pages) := by
  obtain ⟨hpos, hkeys, hplain⟩ := h
  refine ⟨?_, ?_, ?_⟩
  · intro name n hl
    by_cases hn : name = categoryName
    · subst hn
      unfold loadMoreUpdater at hl
      rw [lookup_setOwn_self] at hl
      have hv := Option.some.inj hl
      cases ho : orOne (getPage pages name) with
      | number k => rw [ho] at hv; simp only [plusOne] at hv; cases hv; omega
      | text => rw [ho] at hv; simp [plusOne] at hv
      | inherited => rw [ho] at hv; simp [plusOne] at hv
    · rw [loadMoreUpdater_other _ _ _ hn] at hl
      exact hpos name n hl
  · intro name hmem hne
    obtain ⟨n, hl⟩ := hkeys name hmem hne
    by_cases hn : name = categoryName
    · subst hn
      exact ⟨n + 1, loadMoreUpdater_of_number pages name n (hpos name n hl) hl⟩
    · exact ⟨n, by rw [loadMoreUpdater_other _ _ _ hn]; exact hl⟩
  · intro name hproto v hl
    by_cases hn : name = categoryName
    · subst hn
      cases hold : pages.lookup name with
      | none =>
        rw [loadMoreUpdater_of_undefined pages name hold hproto] at hl
        exact ⟨2, (Option.some.inj hl).symm⟩
      | some w =>
        obtain ⟨n, hw⟩ := hplain name hproto w hold
        subst hw
        rw [loadMoreUpdater_of_number pages name n (hpos name n hold) hold] at hl
        exact ⟨n + 1, (Option.some.inj hl).symm⟩
    · rw [loadMoreUpdater_other _ _ _ hn] at hl
      exact hplain name hproto v hl

/-- The cursor invariant holds after the load and after every later call of
`loadMoreMovies`, whatever the names passed. -/
theorem pagesReachable_inv {movies : List Movie} {categories : CategoryIndex}
    {s : AppState} (h : PagesReachable movies categories s) :
    PagesInv categories s.currentPage := by
  induction h with
  | load => exact initialPages_inv categories
  | loadMore s categoryName _ ih => exact loadMoreUpdater_inv categories _ categoryName ih

/-- A call with a name that is a dataset category or no member of
`Object.prototype` keeps every cursor a page number. -/
theorem allPageNumbers_loadMoreUpdater (categories : CategoryIndex) (pages : PageMap)
    (categoryName : String) (hinv : PagesInv categories pages)
    (hall : ∀ (name : String) (v : PageValue), pages.lookup name = some v →
      IsPageNumber v)
    (hname : categoryName ∉ objectPrototypeProperties ∨
      (categoryName ∈ categories.map Prod.fst ∧ categoryName ≠ "__proto__")) :
    ∀ (name : String) (v : PageValue),
      (loadMoreUpdater categoryName pages).lookup name = some v → IsPageNumber v := by
  intro name v hl
  by_cases hn : name = categoryName
  · subst hn
    cases hold : pages.lookup name with
    | some w =>
      obtain ⟨n, hw, hpos⟩ := hall name w hold
      subst hw
      rw [loadMoreUpdater_of_number pages name n hpos hold] at hl
      cases hl
      exact ⟨n + 1, rfl, by omega⟩
    | none =>
      have hproto : name ∉ objectPrototypeProperties := by
        rcases hname with h | ⟨hmem, hne⟩
        · exact h
        · obtain ⟨n, hk⟩ := hinv.2.1 name hmem hne
          rw [hold] at hk
          cases hk
      rw [loadMoreUpdater_of_undefined pages name hold hproto] at hl
      cases hl
      exact ⟨2, rfl, by omega⟩
  · rw [loadMoreUpdater_other _ _ _ hn] at hl
    exact hall name v hl

theorem allPageNumbers_foldl (movies : List Movie) (categories : CategoryIndex)
    (names : List String) :
    ∀ s : AppState, PagesReachable movies categories s →
      (∀ (name : String) (v : PageValue), s.currentPage.lookup name = some v →
        IsPageNumber v) →
      (∀ name ∈ names, name ∉ objectPrototypeProperties ∨
        (name ∈ categories.map Prod.fst ∧ name ≠ "__proto__")) →
      ∀ (name : String) (v : PageValue),
        (names.foldl loadMoreMovies s).currentPage.lookup name = some v →
        IsPageNumber v := by
  induction names with
  | nil => intro s _ hall _ name v hl; exact hall name v hl
  | cons first rest ih =>
    intro s hs hall hnames
    rw [List.foldl_cons]
    apply ih (loadMoreMovies s first) (PagesReachable.loadMore s first hs)
    · exact allPageNumbers_loadMoreUpdater categories s.currentPage first
        (pagesReachable_inv hs) hall (hnames first (by simp))
    · intro name hmem
      exact hnames name (List.mem_cons_of_mem _ hmem)

/-- C13: after the load every category of the dataset (the name `__proto__`
apart) has cursor 1.  In every state reached by the load followed by calls of
`loadMoreMovies` with any names, a cursor that is a number is at least 1, and
the cursor of a dataset category, or of any name that is no member of
`Object.prototype`, is a positive integer.  No call decrements or resets a
cursor: a call of `loadMoreMovies` leaves each cursor that is a number as it
is or adds exactly 1 to it.  After the load followed by calls with names that
are dataset categories or no members of `Object.prototype` (no caller passes
another name), every cursor is a positive integer. -/
theorem cursors_positive_monotone (movies : List Movie) (categories : CategoryIndex)
    (s : AppState) (hs : PagesReachable movies categories s) :
    (∀ name ∈ categories.map Prod.fst, name ≠ "__proto__" →
      (loadData initialApp movies categories).currentPage.lookup name =
        some (PageValue.number 1)) ∧
    (∀ (name : String) (n : Nat),
      s.currentPage.lookup name = some (PageValue.number n) → 1 ≤ n) ∧
    (∀ (name : String) (v : PageValue), s.currentPage.lookup name = some v →
      (name ∉ objectPrototypeProperties ∨
        (name ∈ categories.map Prod.fst ∧ name ≠ "__proto__")) →
      IsPageNumber v) ∧
    (∀ (categoryName name : String) (n : Nat),
      s.currentPage.lookup name = some (PageValue.number n) →
      (loadMoreMovies s categoryName).currentPage.lookup name =
          some (PageValue.number n) ∨
      (loadMoreMovies s categoryName).currentPage.lookup name =
          some (PageValue.number (n + 1))) ∧
    (∀ names : List String,
      (∀ name ∈ names, name ∉ objectPrototypeProperties ∨
        (name ∈ categories.map Prod.fst ∧ name ≠ "__proto__")) →
      ∀ (name : String) (v : PageValue),
        (names.foldl loadMoreMovies
          (loadData initialApp movies categories)).currentPage.lookup name = some v →
        IsPageNumber v) := by
  obtain ⟨hpos, hkeys, hplain⟩ := pagesReachable_inv hs
  refine ⟨?_, hpos, ?_, ?_, ?_⟩
  · intro name hmem hne
    exact foldl_assignPage_keys (categories.map Prod.fst) [] name hne (Or.inl hmem)
  · intro name v hl hname
    rcases hname with hproto | ⟨hmem, hne⟩
    · obtain ⟨n, hv⟩ := hplain name hproto v hl
      subst hv
      exact ⟨n, rfl, hpos name n hl⟩
    · obtain ⟨n, hn⟩ := hkeys name hmem hne
      rw [hl] at hn
      cases hn
      exact ⟨n, rfl, hpos name n hl⟩
  · intro categoryName name n hl
    by_cases hn : name = categoryName
    · subst hn
      right
      exact loadMoreUpdater_of_number s.currentPage name n (hpos name n hl) hl
    · left
      show (loadMoreUpdater categoryName s.currentPage).lookup name = _
      rw [loadMoreUpdater_other _ _ _ hn]
      exact hl
  · intro names hnames
    apply allPageNumbers_foldl movies categories names
      (loadData initialApp movies categories) PagesReachable.load _ hnames
    intro name v hl
    have hone := foldl_assignPage_values (categories.map Prod.fst) []
      (fun name v h => by simp at h) name v hl
    exact ⟨1, hone, Nat.le_refl 1⟩

/-- The loaded scenario after one more page of `trending` has been asked for. -/
theorem cursors_positive_monotone_witness :
    PagesReachable sampleMovies sampleCategories
      (loadMoreMovies (loadData initialApp sampleMovies sampleCategories) "trending") ∧
    ((∀ name ∈ sampleCategories.map Prod.fst, name ≠ "__proto__" →
      (loadData initialApp sampleMovies sampleCategories).currentPage.lookup name =
        some (PageValue.number 1)) ∧
    (∀ (name : String) (n : Nat),
      (loadMoreMovies (loadData initialApp sampleMovies sampleCategories)
        "trending").currentPage.lookup name = some (PageValue.number n) → 1 ≤ n) ∧
    (∀ (name : String) (v : PageValue),
      (loadMoreMovies (loadData initialApp sampleMovies sampleCategories)
        "trending").currentPage.lookup name = some v →
      (name ∉ objectPrototypeProperties ∨
        (name ∈ sampleCategories.map Prod.fst ∧ name ≠ "__proto__")) →
      IsPageNumber v) ∧
    (∀ (categoryName name : String) (n : Nat),
      (loadMoreMovies (loadData initialApp sampleMovies sampleCategories)
        "trending").currentPage.lookup name = some (PageValue.number n) →
      (loadMoreMovies
        (loadMoreMovies (loadData initialApp sampleMovies sampleCategories) "trending")
        categoryName).currentPage.lookup name = some (PageValue.number n) ∨
      (loadMoreMovies
        (loadMoreMovies (loadData initialApp sampleMovies sampleCategories) "trending")
        categoryName).currentPage.lookup name = some (PageValue.number (n + 1))) ∧
    (∀ names : List String,
      (∀ name ∈ names, name ∉ objectPrototypeProperties ∨
        (name ∈ sampleCategories.map Prod.fst ∧ name ≠ "__proto__")) →
      ∀ (name : String) (v : PageValue),
        (names.foldl loadMoreMovies
          (loadData initialApp sampleMovies sampleCategories)).currentPage.lookup
            name = some v →
        IsPageNumber v)) :=
  ⟨PagesReachable.loadMore _ _ PagesReachable.load,
    cursors_positive_monotone sampleMovies sampleCategories _
      (PagesReachable.loadMore _ _ PagesReachable.load)⟩

/-- Were `loadMoreMovies` called with the name `constructor`, which no caller
passes, after the load of the scenario dataset, the cursor stored under that
name would be a string; the cursor of the dataset category `trending` is still
1. -/
theorem cursor_text_after_constructor :
    PagesReachable sampleMovies sampleCategories
      (loadMoreMovies (loadData initialApp sampleMovies sampleCategories) "constructor") ∧
    (loadMoreMovies (loadData initialApp sampleMovies sampleCategories)
      "constructor").currentPage.lookup "constructor" = some PageValue.text ∧
    ¬ IsPageNumber PageValue.text ∧
    (loadMoreMovies (loadData initialApp sampleMovies sampleCategories)
      "constructor").currentPage.lookup "trending" = some (PageValue.number 1) := by
  refine ⟨PagesReachable.loadMore _ _ PagesReachable.load, by decide, ?_, by decide⟩
  rintro ⟨n, hn, _⟩
  cases hn

end NetflixClone
